import Mathlib

set_option maxRecDepth 100000

/-!
Shallow embedding of the Furniture Matching & Budget Allocation Engine of the
planche repository (source: the matcher code in
`src/AI_Interior_Design_Full_Implementation_Plan.md`: `match_furniture_for_room`,
`rank_candidates`, `query_supabase_for_matching`, `get_max_dimension_for_slot`,
`distribute_budget_across_rooms`, and the static configuration tables).

Modelling conventions:
* Python floats are embedded as exact rationals (ℚ); decimal literals such as
  `0.4` are read as the exact rationals they denote (`2/5`).
* Python `round(x, n)` is embedded as exact half-to-even rounding at `n`
  decimal places (`roundHalfEven`), the idealised decimal reading of Python's
  banker's rounding.
* Catalog rows are `Product` records.  The `price` column is nullable in the
  database schema, but every query the matcher issues applies a `max_price`
  filter, and SQL comparisons against NULL are falsy, so rows with a NULL
  price can never reach the matcher; `price` is therefore embedded as a plain
  rational.  Truthiness of the remaining nullable fields (`c.get(...)`) is
  embedded field by field exactly as CPython evaluates it (None, `0`, `0.0`
  and `""` are falsy).
* The Supabase query builder is embedded as a pure function over a catalog
  snapshot (a list of rows): filter, then order by rating descending with
  NULLs last keeping the snapshot order on ties (a stable sort, embedded as a
  sort by the lexicographic key (rating-position, snapshot-index)), then
  `limit`.
* Exceptions the Python code can raise (`BUDGET_TIERS[tier]` KeyError,
  ZeroDivisionError in the final `budget_utilization_pct` computation and in
  the budget distributor) are embedded with `Except`.
-/

/-- Half-to-even rounding of a rational to an integer (Python `round(q)`,
read over exact decimals). -/
def roundHalfEven (q : ℚ) : ℤ :=
  if q - ⌊q⌋ < 1/2 then ⌊q⌋
  else if 1/2 < q - ⌊q⌋ then ⌊q⌋ + 1
  else if ⌊q⌋ % 2 = 0 then ⌊q⌋ else ⌊q⌋ + 1

/-- Python `round(q, 2)`, read over exact decimals (half-to-even).  This is
an idealisation of CPython's IEEE-double `round`, which rounds the nearest
double rather than the decimal value; the two can differ where the decimal
value sits within representation error of a `.xx5` tie.  Every concrete
evaluation in this file is therefore placed at inputs whose decimal distance
from ties is far above double representation error, where both semantics
agree. -/
def round2 (q : ℚ) : ℚ := (roundHalfEven (q * 100) : ℚ) / 100

/-- Python `round(q, 1)` over exact decimals. -/
def round1 (q : ℚ) : ℚ := (roundHalfEven (q * 10) : ℚ) / 10

/-- Python `int(q)` for a rational: truncation toward zero. -/
def intTrunc (q : ℚ) : ℤ := if 0 ≤ q then ⌊q⌋ else -⌊-q⌋

/-- `q` is a whole number of cents (an exact two-decimal value). -/
def IsCent (q : ℚ) : Prop := ∃ n : ℤ, q * 100 = n

/-- Case-insensitive character comparison helper for SQL `ilike`. -/
def lowChars (s : String) : List Char := s.toList.map Char.toLower

def listStartsWith : List Char → List Char → Bool
  | _, [] => true
  | [], _ :: _ => false
  | a :: as, b :: bs => a == b && listStartsWith as bs

def listHasSub : List Char → List Char → Bool
  | [], needle => needle.isEmpty
  | a :: as, needle => listStartsWith (a :: as) needle || listHasSub as needle

/-- SQL `hay ILIKE '%needle%'`: case-insensitive containment. -/
def ilikeSub (hay needle : String) : Bool :=
  listHasSub (lowChars hay) (lowChars needle)

/-- Tag the elements of a list with their indices, starting at `n`. -/
def tagIdx : ℕ → List α → List (ℕ × α)
  | _, [] => []
  | n, a :: as => (n, a) :: tagIdx (n + 1) as

/-- Python `dict.get` over an association list. -/
def assocLookup : List (String × α) → String → Option α
  | [], _ => none
  | (k, v) :: rest, key => if k = key then some v else assocLookup rest key

/-- Python `dict[k] = v`: overwrite in place if present, else append
(insertion order is preserved, as in CPython dicts). -/
def assocInsert : List (String × α) → String → α → List (String × α)
  | [], key, v => [(key, v)]
  | (k, w) :: rest, key, v =>
      if k = key then (k, v) :: rest else (k, w) :: assocInsert rest key v

/-- Python `"s".split("_")[0]`. -/
def firstSeg (s : String) : String := (s.splitOn "_").headD s

/-! ## Data model -/

/-- One catalog row, as read by the matcher (`products` table). -/
structure Product where
  name : String := ""
  price : ℚ := 0
  currency : String := "EUR"
  category : String := ""
  subcategory : Option String := none
  room_type : Option String := none
  style : Option String := none
  width_cm : Option ℚ := none
  height_cm : Option ℚ := none
  depth_cm : Option ℚ := none
  dimensions_source : Option String := none
  proportion_w_h : Option ℚ := none
  proportion_w_d : Option ℚ := none
  visual_description : Option String := none
  color : Option String := none
  primary_material : Option String := none
  luxury_score : Option ℚ := none
  rating : Option ℚ := none
  in_stock : Bool := true
  image_usable : Bool := false
  r2_main_image_key : Option String := none
  product_url : String := ""
  source_domain : String := ""
deriving DecidableEq, Inhabited

/-- A usable wall from the room analysis. -/
structure Wall where
  wall : String := ""
  free_length_cm : Option ℚ := none
  suitable_for : List String := []
deriving DecidableEq, Inhabited

/-- The room layout consumed by the matcher and the budget distributor. -/
structure Room where
  id : String := ""
  type : String := ""
  estimated_width_cm : ℚ := 0
  estimated_depth_cm : ℚ := 0
  estimated_area_sqm : Option ℚ := none
  usable_walls : List Wall := []
deriving DecidableEq, Inhabited

/-- A slot quantity: the configuration stores either a fixed integer or a
`(min, max)` pair. -/
inductive Quantity where
  | fixed (n : ℕ)
  | range (lo hi : ℕ)
deriving DecidableEq

/-- `slot["quantity"] if isinstance(slot["quantity"], int) else slot["quantity"][1]`. -/
def Quantity.upper : Quantity → ℕ
  | .fixed n => n
  | .range _ hi => hi

structure SlotReq where
  slot : String
  categories : List String
  quantity : Quantity
deriving DecidableEq

structure Requirements where
  required : List SlotReq
  optional : List SlotReq
deriving DecidableEq

structure TierConfig where
  per_sqm_eur : ℚ × ℚ
  preferred_sources : List String
  max_single_item_pct : ℚ
  style_keywords : List String
deriving DecidableEq

/-! ## Static configuration tables -/

/-- `BUDGET_TIERS` (the UI label and description strings are not read by the
matcher and are omitted). -/
def BUDGET_TIERS : String → Option TierConfig := fun t =>
  if t = "budget" then
    some ⟨(30, 60), ["jysk.bg", "ikea.bg", "emag.bg"], 35/100,
      ["budget", "basic", "functional", "minimalist"]⟩
  else if t = "standard" then
    some ⟨(60, 150), ["videnov.bg", "ikea.bg", "aiko-bg.com"], 30/100,
      ["modern", "scandinavian", "contemporary"]⟩
  else if t = "premium" then
    some ⟨(150, 350), ["wayfair.co.uk", "ikea.com", "videnov.bg"], 25/100,
      ["premium", "designer", "high-end"]⟩
  else if t = "luxury" then
    some ⟨(350, 1000), ["wayfair.co.uk"], 25/100,
      ["luxury", "premium", "designer", "exclusive"]⟩
  else none

/-- `ROOM_BUDGET_ALLOCATION`: room type → slot category → (min_frac, max_frac).
An unknown room type behaves as `{}` (`.get(room_type, {})` at the call site). -/
def ROOM_BUDGET_ALLOCATION : String → List (String × ℚ × ℚ) := fun rt =>
  if rt = "living room" then
    [("seating", 30/100, 40/100), ("tables", 8/100, 15/100),
     ("storage", 10/100, 20/100), ("lighting", 5/100, 10/100),
     ("rugs", 5/100, 10/100), ("decor", 5/100, 10/100)]
  else if rt = "bedroom" then
    [("bed", 35/100, 45/100), ("storage", 20/100, 30/100),
     ("nightstands", 8/100, 12/100), ("lighting", 5/100, 10/100),
     ("rugs", 3/100, 8/100), ("decor", 3/100, 8/100)]
  else if rt = "kitchen" then
    [("dining_table", 25/100, 35/100), ("chairs", 20/100, 30/100),
     ("storage", 15/100, 25/100), ("lighting", 5/100, 10/100),
     ("accessories", 5/100, 10/100)]
  else if rt = "dining room" then
    [("dining_table", 30/100, 40/100), ("chairs", 25/100, 35/100),
     ("storage", 10/100, 20/100), ("lighting", 5/100, 10/100),
     ("decor", 5/100, 10/100)]
  else if rt = "office" then
    [("desk", 30/100, 40/100), ("chair", 20/100, 30/100),
     ("storage", 15/100, 25/100), ("lighting", 5/100, 10/100),
     ("accessories", 5/100, 10/100)]
  else if rt = "kids room" then
    [("bed", 30/100, 40/100), ("desk", 15/100, 20/100),
     ("storage", 20/100, 30/100), ("lighting", 5/100, 10/100),
     ("decor", 5/100, 10/100)]
  else []

/-- The `ROOM_FURNITURE_REQUIREMENTS` dictionary, as an optional lookup
(so that "room type present in the table" is expressible). -/
def reqTable : String → Option Requirements := fun rt =>
  if rt = "living room" then some
    ⟨[⟨"sofa", ["sofa", "corner sofa", "sofa bed"], .fixed 1⟩,
      ⟨"coffee_table", ["coffee table", "table"], .fixed 1⟩],
     [⟨"tv_unit", ["TV stand", "wall unit", "shelving"], .fixed 1⟩,
      ⟨"armchair", ["armchair", "chair"], .range 0 2⟩,
      ⟨"bookcase", ["bookcase", "shelf unit", "shelving"], .range 0 1⟩,
      ⟨"floor_lamp", ["lamp", "floor lamp"], .range 0 2⟩,
      ⟨"rug", ["rug", "carpet"], .range 0 1⟩,
      ⟨"side_table", ["side table", "table"], .range 0 2⟩]⟩
  else if rt = "bedroom" then some
    ⟨[⟨"bed", ["bed", "double bed"], .fixed 1⟩,
      ⟨"wardrobe", ["wardrobe", "cabinet"], .fixed 1⟩],
     [⟨"nightstand", ["nightstand", "bedside table"], .range 0 2⟩,
      ⟨"dresser", ["dresser", "chest of drawers"], .range 0 1⟩,
      ⟨"mirror", ["mirror"], .range 0 1⟩,
      ⟨"lamp", ["lamp", "table lamp"], .range 0 2⟩,
      ⟨"rug", ["rug"], .range 0 1⟩]⟩
  else if rt = "kitchen" then some
    ⟨[⟨"dining_table", ["dining table", "kitchen table", "table"], .fixed 1⟩,
      ⟨"chairs", ["dining chair", "chair"], .range 2 6⟩],
     [⟨"storage", ["cabinet", "shelf unit"], .range 0 1⟩]⟩
  else if rt = "office" then some
    ⟨[⟨"desk", ["desk", "office desk"], .fixed 1⟩,
      ⟨"chair", ["office chair", "chair"], .fixed 1⟩],
     [⟨"bookcase", ["bookcase", "shelf unit"], .range 0 2⟩,
      ⟨"lamp", ["desk lamp", "lamp"], .range 0 1⟩]⟩
  else none

/-- `ROOM_FURNITURE_REQUIREMENTS.get(room_type, {})`. -/
def ROOM_FURNITURE_REQUIREMENTS (rt : String) : Requirements :=
  (reqTable rt).getD ⟨[], []⟩

/-- `ROOM_BUDGET_WEIGHT` (base weight per room type). -/
def ROOM_BUDGET_WEIGHT : String → Option ℚ := fun rt =>
  if rt = "living room" then some (30/100)
  else if rt = "bedroom" then some (25/100)
  else if rt = "kitchen" then some (20/100)
  else if rt = "dining room" then some (10/100)
  else if rt = "office" then some (8/100)
  else if rt = "kids room" then some (5/100)
  else if rt = "bathroom" then some (2/100)
  else none

/-! ## Candidate scoring and ranking (`rank_candidates`) -/

/-- Truthiness of a nullable string (`c.get(k)`): present and non-empty. -/
def truthyStr : Option String → Bool
  | some s => !s.isEmpty
  | none => false

/-- Truthiness of a nullable numeric (`c.get(k)`): present and nonzero. -/
def truthyQ : Option ℚ → Bool
  | some q => decide (q ≠ 0)
  | none => false

/-- The additive candidate score computed inside `rank_candidates`. -/
def score (tier : String) (target_price : ℚ) (c : Product) : ℕ :=
  (if c.price ≠ 0 ∧ target_price ≠ 0 then
    (let price_ratio := c.price / target_price
     (if 6/10 ≤ price_ratio ∧ price_ratio ≤ 11/10 then 30
      else if 4/10 ≤ price_ratio ∧ price_ratio ≤ 13/10 then 15 else 0)
     + (if tier = "luxury" ∧ 8/10 < price_ratio then 10 else 0))
   else 0)
  + (if truthyStr c.r2_main_image_key then 25 else 0)
  + (if c.dimensions_source = some "website_verified" ∨
        c.dimensions_source = some "ai_estimated" then 20
     else if truthyQ c.width_cm then 10 else 0)
  + (if truthyStr c.visual_description then 15 else 0)
  + (if truthyQ c.proportion_w_h then 15 else 0)
  + (match c.luxury_score with
     | some ls =>
       if ls ≠ 0 then
         if tier = "luxury" ∧ 7/10 < ls then 15
         else if tier = "budget" ∧ ls < 3/10 then 10
         else if (tier = "standard" ∨ tier = "premium") ∧ 3/10 ≤ ls ∧ ls ≤ 7/10 then 10
         else 0
       else 0
     | none => 0)
  + (match c.rating with
     | some r => if r ≠ 0 ∧ 4 ≤ r then 10 else 0
     | none => 0)

/-- Ordering used to embed the stable descending sort of the scored list:
higher score first, ties kept in input order (elements are
(score, input index, candidate)). -/
def rankOrd (a b : ℕ × ℕ × Product) : Prop :=
  b.1 < a.1 ∨ (a.1 = b.1 ∧ a.2.1 ≤ b.2.1)

instance : DecidableRel rankOrd := fun a b =>
  inferInstanceAs (Decidable (b.1 < a.1 ∨ (a.1 = b.1 ∧ a.2.1 ≤ b.2.1)))

instance : IsTotal (ℕ × ℕ × Product) rankOrd := by
  constructor
  intro a b
  obtain ⟨sa, ia, _⟩ := a
  obtain ⟨sb, ib, _⟩ := b
  unfold rankOrd
  simp only
  omega

instance : IsTrans (ℕ × ℕ × Product) rankOrd := by
  constructor
  intro a b c hab hbc
  obtain ⟨sa, ia, _⟩ := a
  obtain ⟨sb, ib, _⟩ := b
  obtain ⟨sc, ic, _⟩ := c
  unfold rankOrd at *
  simp only at *
  omega

/-- `rank_candidates`: score every candidate, sort the scored list stably by
descending score (Python `scored.sort(key=lambda x: -x[0])`), return the first
entry's product.  On an empty list the source raises IndexError (its callers
guard with `if candidates:`); the embedding returns a junk product there. -/
def rank_candidates (candidates : List Product) (target_price : ℚ) (tier : String) : Product :=
  let scored := (tagIdx 0 candidates).map (fun ic => (score tier target_price ic.2, ic.1, ic.2))
  let sorted := List.insertionSort rankOrd scored
  (sorted.headD (0, 0, default)).2.2

/-! ## Catalog query (`query_supabase_for_matching`) -/

structure QueryParams where
  categories : List String := []
  room : Option String := none
  style : Option String := none
  min_price : Option ℚ := none
  max_price : Option ℚ := none
  max_width : ℤ := 0
  preferred_sources : List String := []
  require_usable_image : Bool := true
  require_proportions : Bool := false
  limit : ℕ := 10
deriving DecidableEq

/-- The conjunction of filters the query builder applies for the given
parameters (Python skips a filter when its argument is falsy; SQL comparisons
against NULL columns are falsy). -/
def matchesQuery (ps : QueryParams) (p : Product) : Bool :=
  (ps.categories.isEmpty || (ps.categories.contains p.category ||
     (match p.subcategory with | some sc => ps.categories.contains sc | none => false)))
  && (match ps.room with
      | none => true
      | some r => r.isEmpty ||
          (match p.room_type with | some rt => ilikeSub rt r | none => false))
  && (match ps.style with
      | none => true
      | some s => s.isEmpty ||
          ((match p.style with | some st => ilikeSub st s | none => false) || p.style.isNone))
  && (match ps.min_price with | none => true | some m => decide (m ≤ p.price))
  && (match ps.max_price with | none => true | some m => decide (p.price ≤ m))
  && (ps.max_width == 0 ||
      (match p.width_cm with | some w => decide (w ≤ (ps.max_width : ℚ)) | none => true))
  && (!ps.require_usable_image || (p.image_usable && p.r2_main_image_key.isSome))
  && (!ps.require_proportions || p.proportion_w_h.isSome)
  && p.in_stock
  && (ps.preferred_sources.isEmpty || ps.preferred_sources.contains p.source_domain)

/-- `ORDER BY rating DESC NULLS LAST` with ties kept in snapshot order,
on index-tagged rows. -/
def qOrdB (a b : ℕ × Product) : Bool :=
  match a.2.rating, b.2.rating with
  | some x, some y => decide (y < x) || (decide (x = y) && decide (a.1 ≤ b.1))
  | some _, none => true
  | none, some _ => false
  | none, none => decide (a.1 ≤ b.1)

def qOrd (a b : ℕ × Product) : Prop := qOrdB a b = true

instance : DecidableRel qOrd := fun a b => instDecidableEqBool (qOrdB a b) true

/-- The catalog query: filter the snapshot, order by rating descending with
NULLs last (stable w.r.t. snapshot order), return the first `limit` rows. -/
def query_supabase_for_matching (ps : QueryParams) (catalog : List Product) : List Product :=
  let filtered := catalog.filter (fun p => matchesQuery ps p)
  let sorted := (List.insertionSort qOrd (tagIdx 0 filtered)).map (fun ip => ip.2)
  sorted.take ps.limit

/-! ## Spatial limits and result assembly helpers -/

def wallScan (slot : String) (width : ℚ) : List Wall → Option ℚ
  | [] => none
  | w :: ws =>
      if slot ∈ w.suitable_for then some (w.free_length_cm.getD (width * (6/10)))
      else wallScan slot width ws

/-- `get_max_dimension_for_slot`: wall measurement when a usable wall is
suitable for the slot, else a static proportional-limit table. -/
def get_max_dimension_for_slot (slot : String) (room : Room) : ℤ :=
  match wallScan slot room.estimated_width_cm room.usable_walls with
  | some v => intTrunc v
  | none =>
    let width := room.estimated_width_cm
    let depth := room.estimated_depth_cm
    intTrunc
      (if slot = "sofa" then width * (75/100)
       else if slot = "coffee_table" then width * (35/100)
       else if slot = "bed" then min (width * (7/10)) 220
       else if slot = "wardrobe" then width * (6/10)
       else if slot = "desk" then min (width * (5/10)) 180
       else if slot = "dining_table" then min (width * (6/10)) (depth * (5/10))
       else if slot = "tv_unit" then width * (5/10)
       else if slot = "bookcase" then width * (4/10)
       else if slot = "nightstand" then 60
       else if slot = "dresser" then width * (4/10)
       else if slot = "lamp" then 50
       else if slot = "rug" then width * (7/10)
       else if slot = "chair" then 80
       else if slot = "armchair" then 100
       else if slot = "side_table" then 60
       else if slot = "mirror" then width * (3/10)
       else width * (5/10))

/-- Modelled from the spec: `get_placement_for_slot` is called by the matcher
but its definition is not in the repository snapshot; per the spec each
matched item carries "a placement hint (wall or zone) derived from the room
layout".  Embedded as the first usable wall that may legally hold the slot. -/
def get_placement_for_slot (slot : String) (room : Room) : Option String :=
  (room.usable_walls.find? (fun w => w.suitable_for.contains slot)).map (fun w => w.wall)

/-- `R2_PUBLIC_URL` (r2_client.py): read from the environment with default
`"https://pub-xxx.r2.dev"`; embedded as that default (the matcher only ever
concatenates it). -/
def R2_PUBLIC_URL : String := "https://pub-xxx.r2.dev"

/-- `get_image_url` (r2_client.py): the public URL of an R2 image,
`f"{R2_PUBLIC_URL}/{r2_key}"`. -/
def get_image_url (r2_key : String) : String := R2_PUBLIC_URL ++ "/" ++ r2_key

structure SelectedItem where
  slot : String
  product : Product
  quantity : ℕ
  placement : Option String
deriving DecidableEq

structure RenderRef where
  slot : String
  r2_key : String
  r2_url : String
  visual_description : String
  width_cm : Option ℚ
  height_cm : Option ℚ
  depth_cm : Option ℚ
  proportion_w_h : Option ℚ
  proportion_w_d : Option ℚ
  color : Option String
  primary_material : Option String
deriving DecidableEq

structure BuyLink where
  name : String
  price : ℚ
  currency : String
  url : String
  source : String
  image_url : String
deriving DecidableEq

/-- The `product_images_for_render` projection: kept only when the selected
product's image key is truthy (present and non-empty). -/
def renderRefOf (it : SelectedItem) : Option RenderRef :=
  match it.product.r2_main_image_key with
  | some k =>
      if k.isEmpty then none
      else some ⟨it.slot, k, get_image_url k, it.product.visual_description.getD "",
        it.product.width_cm, it.product.height_cm, it.product.depth_cm,
        it.product.proportion_w_h, it.product.proportion_w_d,
        it.product.color, it.product.primary_material⟩
  | none => none

/-- The `buy_links` projection.  The source indexes
`p["product"]["r2_main_image_key"]` directly; the key is non-NULL for every
selected product because every query requires a usable image, so the `getD`
default is never taken on reachable states. -/
def buyLinkOf (it : SelectedItem) : BuyLink :=
  ⟨it.product.name, it.product.price, it.product.currency, it.product.product_url,
   it.product.source_domain, get_image_url (it.product.r2_main_image_key.getD "")⟩

structure MatchResult where
  room : Room
  tier : String
  style : Option String
  budget_total : ℚ
  budget_spent : ℚ
  budget_remaining : ℚ
  budget_utilization_pct : ℚ
  products : List SelectedItem
  product_count : ℕ
  product_images_for_render : List RenderRef
  buy_links : List BuyLink
deriving DecidableEq

/-- The exceptions the matcher and the distributor can raise. -/
inductive MatchErr where
  | unknownTier
  | divByZero
deriving DecidableEq

/-! ## The matcher state machine (`match_furniture_for_room`) -/

inductive Phase where
  | required
  | optional
deriving DecidableEq

/-- One purchase event: an item appended to `selected_products` with its price
deducted from `remaining_budget` (recorded with the value of
`remaining_budget` just before the deduction). -/
structure Purchase where
  slotName : String
  price : ℚ
  remainingBefore : ℚ
deriving DecidableEq

/-- Audit record of one slot iteration: the budget figures computed for the
slot, the catalog query issued (if any, with the candidates it returned) and
the items appended.  The audit fields record what the loop body did; they do
not influence control flow. -/
structure StepRec where
  phase : Phase
  slotName : String
  remainingBefore : ℚ
  slotBudget : ℚ
  perItemBudget : ℚ
  query : Option (QueryParams × List Product)
  picked : List SelectedItem
deriving DecidableEq

structure MState where
  selected : List SelectedItem
  remaining : ℚ
  spent : ℚ
  purchases : List Purchase
  log : List StepRec
deriving DecidableEq

/-- The per-invocation constants of one matching run. -/
structure Ctx where
  room : Room
  budget : ℚ
  tier : String
  style : Option String
  tierCfg : TierConfig
  allocations : List (String × ℚ × ℚ)
  catalog : List Product

/-- `allocations.get(slot_name.split("_")[0], allocations.get(slot_name, (0.15, 0.25)))`. -/
def requiredAlloc (allocations : List (String × ℚ × ℚ)) (slotName : String) : ℚ × ℚ :=
  (assocLookup allocations (firstSeg slotName)).getD
    ((assocLookup allocations slotName).getD (15/100, 25/100))

/-- `allocations.get(slot_name, (0.03, 0.08))`. -/
def optionalAlloc (allocations : List (String × ℚ × ℚ)) (slotName : String) : ℚ × ℚ :=
  (assocLookup allocations slotName).getD (3/100, 8/100)

/-- One iteration of the required-slot loop (Step 1 of the source).  The inner
`for i in range(quantity)` loop appends `quantity` copies of the winning item,
adding its price to `total_spent` and subtracting it from `remaining_budget`
once per copy; it is embedded by its cumulative effect, with one `Purchase`
event per copy. -/
def requiredStep (ctx : Ctx) (st : MState) (slot : SlotReq) : MState :=
  let qty := slot.quantity.upper
  let alloc := requiredAlloc ctx.allocations slot.slot
  let slot_budget := st.remaining * alloc.2
  let per_item_budget := slot_budget / qty
  let ps : QueryParams := {
    categories := slot.categories,
    room := some ctx.room.type,
    style := ctx.style,
    min_price := some (per_item_budget * (3/10)),
    max_price := some per_item_budget,
    max_width := get_max_dimension_for_slot slot.slot ctx.room,
    preferred_sources := ctx.tierCfg.preferred_sources,
    require_usable_image := true,
    require_proportions := true,
    limit := 5 }
  let candidates := query_supabase_for_matching ps ctx.catalog
  match candidates with
  | [] =>
    { st with log := st.log ++
        [⟨.required, slot.slot, st.remaining, slot_budget, per_item_budget, some (ps, []), []⟩] }
  | c :: cs =>
    let best := rank_candidates (c :: cs) per_item_budget ctx.tier
    let item : SelectedItem := ⟨slot.slot, best, 1, get_placement_for_slot slot.slot ctx.room⟩
    let picked := List.replicate qty item
    { selected := st.selected ++ picked,
      remaining := st.remaining - (qty : ℚ) * best.price,
      spent := st.spent + (qty : ℚ) * best.price,
      purchases := st.purchases ++
        (List.range qty).map (fun i => ⟨slot.slot, best.price, st.remaining - (i : ℚ) * best.price⟩),
      log := st.log ++
        [⟨.required, slot.slot, st.remaining, slot_budget, per_item_budget, some (ps, c :: cs), picked⟩] }

def runRequired (ctx : Ctx) (st : MState) : List SlotReq → MState
  | [] => st
  | s :: rest => runRequired ctx (requiredStep ctx st s) rest

/-- The optional-slot loop (Step 2 of the source): stops at the first slot
reached with `remaining_budget <= 0`; skips (with `continue`) any slot whose
computed budget is under the €15 floor. -/
def runOptional (ctx : Ctx) (st : MState) : List SlotReq → MState
  | [] => st
  | slot :: rest =>
    if st.remaining ≤ 0 then st
    else
      let alloc := optionalAlloc ctx.allocations slot.slot
      let slot_budget := min (st.remaining * (4/10)) (ctx.budget * alloc.2)
      if slot_budget < 15 then
        runOptional ctx
          { st with log := st.log ++
              [⟨.optional, slot.slot, st.remaining, slot_budget, slot_budget, none, []⟩] } rest
      else
        let ps : QueryParams := {
          categories := slot.categories,
          max_price := some slot_budget,
          style := ctx.style,
          max_width := get_max_dimension_for_slot slot.slot ctx.room,
          preferred_sources := ctx.tierCfg.preferred_sources,
          require_usable_image := true,
          limit := 3 }
        let candidates := query_supabase_for_matching ps ctx.catalog
        match candidates with
        | [] =>
          runOptional ctx
            { st with log := st.log ++
                [⟨.optional, slot.slot, st.remaining, slot_budget, slot_budget, some (ps, []), []⟩] } rest
        | c :: cs =>
          let best := rank_candidates (c :: cs) (slot_budget * (7/10)) ctx.tier
          let item : SelectedItem := ⟨slot.slot, best, 1, get_placement_for_slot slot.slot ctx.room⟩
          runOptional ctx
            { selected := st.selected ++ [item],
              remaining := st.remaining - best.price,
              spent := st.spent + best.price,
              purchases := st.purchases ++ [⟨slot.slot, best.price, st.remaining⟩],
              log := st.log ++
                [⟨.optional, slot.slot, st.remaining, slot_budget, slot_budget, some (ps, c :: cs), [item]⟩] } rest

/-- Steps 1 and 2 of `match_furniture_for_room`: tier lookup (a KeyError on an
unknown tier) and the two slot loops.  Unknown room types are NOT an error:
`ROOM_BUDGET_ALLOCATION.get(room_type, {})` and
`ROOM_FURNITURE_REQUIREMENTS.get(room_type, {})` silently default. -/
def matchRun (room : Room) (budget_eur : ℚ) (tier : String) (style : Option String)
    (catalog : List Product) : Except MatchErr MState :=
  match BUDGET_TIERS tier with
  | none => .error .unknownTier
  | some tierCfg =>
    let ctx : Ctx := ⟨room, budget_eur, tier, style, tierCfg,
      ROOM_BUDGET_ALLOCATION room.type, catalog⟩
    let reqs := ROOM_FURNITURE_REQUIREMENTS room.type
    let st0 : MState := ⟨[], budget_eur, 0, [], []⟩
    .ok (runOptional ctx (runRequired ctx st0 reqs.required) reqs.optional)

/-- `match_furniture_for_room`.  Step 3 builds the result dict; computing
`budget_utilization_pct` divides `total_spent` by `budget_eur` and raises
ZeroDivisionError when the budget is zero. -/
def match_furniture_for_room (room : Room) (budget_eur : ℚ) (tier : String)
    (style : Option String) (catalog : List Product) : Except MatchErr MatchResult :=
  match matchRun room budget_eur tier style catalog with
  | .error e => .error e
  | .ok st =>
    if budget_eur = 0 then .error .divByZero
    else .ok {
      room := room
      tier := tier
      style := style
      budget_total := budget_eur
      budget_spent := round2 st.spent
      budget_remaining := round2 st.remaining
      budget_utilization_pct := round1 (st.spent / budget_eur * 100)
      products := st.selected
      product_count := st.selected.length
      product_images_for_render := st.selected.filterMap renderRefOf
      buy_links := st.selected.map buyLinkOf }

/-- The audit log of one invocation (empty when the run raised). -/
def matchLog (room : Room) (budget_eur : ℚ) (tier : String) (style : Option String)
    (catalog : List Product) : List StepRec :=
  match matchRun room budget_eur tier style catalog with
  | .ok st => st.log
  | .error _ => []

/-- The purchase events of one invocation (empty when the run raised). -/
def matchPurchases (room : Room) (budget_eur : ℚ) (tier : String) (style : Option String)
    (catalog : List Product) : List Purchase :=
  match matchRun room budget_eur tier style catalog with
  | .ok st => st.purchases
  | .error _ => []

/-- The selected products of one invocation (the `products` list of the
returned MatchResult; empty when the run raised). -/
def matchProducts (room : Room) (budget_eur : ℚ) (tier : String) (style : Option String)
    (catalog : List Product) : List SelectedItem :=
  match matchRun room budget_eur tier style catalog with
  | .ok st => st.selected
  | .error _ => []

/-- The raw (un-rounded) `total_spent` accumulator of one invocation. -/
def matchSpentRaw (room : Room) (budget_eur : ℚ) (tier : String) (style : Option String)
    (catalog : List Product) : ℚ :=
  match matchRun room budget_eur tier style catalog with
  | .ok st => st.spent
  | .error _ => 0

/-- The raw (un-rounded) `remaining_budget` accumulator of one invocation. -/
def matchRemainingRaw (room : Room) (budget_eur : ℚ) (tier : String) (style : Option String)
    (catalog : List Product) : ℚ :=
  match matchRun room budget_eur tier style catalog with
  | .ok st => st.remaining
  | .error _ => 0

/-! ## Multi-room budget distribution (`distribute_budget_across_rooms`) -/

/-- The per-room weight:
`ROOM_BUDGET_WEIGHT.get(rtype, 0.05) * (room.get("estimated_area_sqm", 15) / 15)`. -/
def roomWeight (room : Room) : ℚ :=
  ((ROOM_BUDGET_WEIGHT room.type).getD (5/100)) * ((room.estimated_area_sqm.getD 15) / 15)

/-- `distribute_budget_across_rooms`: weight each room (`roomWeight`) into an
insertion-ordered dict keyed by room id, then share `total_budget`
proportionally, rounding each share to 2 decimals.  An empty dict yields `{}`
without dividing; a nonempty dict with zero total weight raises
ZeroDivisionError. -/
def distribute_budget_across_rooms (rooms : List Room) (total_budget : ℚ) :
    Except MatchErr (List (String × ℚ)) :=
  let weights := rooms.foldl (fun acc room => assocInsert acc room.id (roomWeight room)) []
  let total_weight := (weights.map (fun p => p.2)).sum
  if weights.isEmpty then .ok []
  else if total_weight = 0 then .error .divByZero
  else .ok (weights.map (fun p => (p.1, round2 (p.2 / total_weight * total_budget))))

/-! ## Rounding lemmas -/

theorem roundHalfEven_intCast (n : ℤ) : roundHalfEven (n : ℚ) = n := by
  unfold roundHalfEven
  rw [Int.floor_intCast]
  norm_num

theorem roundHalfEven_le (q : ℚ) : (roundHalfEven q : ℚ) ≤ q + 1/2 := by
  have h0 := Int.floor_le q
  have h1 := Int.lt_floor_add_one q
  unfold roundHalfEven
  split_ifs <;> push_cast <;> linarith

theorem round2_le (q : ℚ) : round2 q ≤ q + 1/200 := by
  have h := roundHalfEven_le (q * 100)
  unfold round2
  linarith

theorem IsCent.round2_eq {q : ℚ} (h : IsCent q) : round2 q = q := by
  obtain ⟨n, hn⟩ := h
  unfold round2
  rw [hn, roundHalfEven_intCast]
  field_simp
  linarith

theorem IsCent.zero : IsCent 0 := ⟨0, by norm_num⟩

theorem IsCent.add {a b : ℚ} (ha : IsCent a) (hb : IsCent b) : IsCent (a + b) := by
  obtain ⟨m, hm⟩ := ha
  obtain ⟨n, hn⟩ := hb
  exact ⟨m + n, by push_cast; linarith⟩

theorem IsCent.sub {a b : ℚ} (ha : IsCent a) (hb : IsCent b) : IsCent (a - b) := by
  obtain ⟨m, hm⟩ := ha
  obtain ⟨n, hn⟩ := hb
  exact ⟨m - n, by push_cast; linarith⟩

theorem IsCent.natMul {p : ℚ} (k : ℕ) (hp : IsCent p) : IsCent ((k : ℚ) * p) := by
  obtain ⟨n, hn⟩ := hp
  exact ⟨(k : ℤ) * n, by push_cast; rw [mul_assoc, hn]⟩

/-! ## List helper lemmas -/

theorem mem_tagIdx {α : Type} : ∀ {l : List α} {n : ℕ} {p : ℕ × α}, p ∈ tagIdx n l →
    ∃ j : ℕ, ∃ h : j < l.length, p.1 = n + j ∧ p.2 = l.get ⟨j, h⟩ := by
  intro l
  induction l with
  | nil => intro n p hp; simp [tagIdx] at hp
  | cons a as ih =>
    intro n p hp
    rw [tagIdx] at hp
    rcases List.mem_cons.mp hp with h | h
    · exact ⟨0, by simp, by simp [h]⟩
    · obtain ⟨j, hj, h1, h2⟩ := ih h
      exact ⟨j + 1, by simpa using hj, by omega, by simpa using h2⟩

theorem tagIdx_mem {α : Type} : ∀ (l : List α) (n j : ℕ) (h : j < l.length),
    (n + j, l.get ⟨j, h⟩) ∈ tagIdx n l := by
  intro l
  induction l with
  | nil => intro n j h; simp at h
  | cons a as ih =>
    intro n j h
    rw [tagIdx]
    match j with
    | 0 => simp
    | j' + 1 =>
      refine List.mem_cons.mpr (Or.inr ?_)
      have := ih (n + 1) j' (by simpa using h)
      simpa [Nat.add_assoc, Nat.add_comm 1 j'] using this

theorem tagIdx_ne_nil {α : Type} {l : List α} (h : l ≠ []) (n : ℕ) : tagIdx n l ≠ [] := by
  cases l with
  | nil => exact absurd rfl h
  | cons a as => simp [tagIdx]

theorem assocLookup_mem {α : Type} : ∀ {l : List (String × α)} {k : String} {v : α},
    assocLookup l k = some v → (k, v) ∈ l := by
  intro l
  induction l with
  | nil => intro k v h; simp [assocLookup] at h
  | cons p rest ih =>
    intro k v h
    rw [assocLookup] at h
    split at h
    · rename_i heq
      cases h
      exact List.mem_cons.mpr (Or.inl (by rw [← heq]))
    · exact List.mem_cons.mpr (Or.inr (ih h))

/-! ## Query and ranker lemmas -/

/-- Everything the query returns comes from the catalog and passes every
filter of the query. -/
theorem mem_query {ps : QueryParams} {catalog : List Product} {p : Product}
    (hp : p ∈ query_supabase_for_matching ps catalog) :
    p ∈ catalog ∧ matchesQuery ps p = true := by
  unfold query_supabase_for_matching at hp
  have hp1 := List.take_subset _ _ hp
  rw [List.mem_map] at hp1
  obtain ⟨ip, hip, hip2⟩ := hp1
  have hip3 : ip ∈ tagIdx 0 (catalog.filter fun q => matchesQuery ps q) :=
    (List.perm_insertionSort qOrd _).mem_iff.mp hip
  obtain ⟨j, hj, _, h2⟩ := mem_tagIdx hip3
  have hmem : ip.2 ∈ catalog.filter fun q => matchesQuery ps q := by
    rw [h2]; exact List.get_mem _ _ _
  rw [List.mem_filter] at hmem
  exact ⟨hip2 ▸ hmem.1, hip2 ▸ hmem.2⟩

/-- A row passing a query whose `max_price` is set obeys the price cap. -/
theorem matches_price_le {ps : QueryParams} {p : Product} {m : ℚ}
    (h : matchesQuery ps p = true) (hm : ps.max_price = some m) : p.price ≤ m := by
  unfold matchesQuery at h
  simp only [Bool.and_eq_true] at h
  obtain ⟨⟨⟨⟨⟨⟨⟨⟨⟨_, _⟩, _⟩, _⟩, h5⟩, _⟩, _⟩, _⟩, _⟩, _⟩ := h
  rw [hm] at h5
  exact of_decide_eq_true h5

/-- `rank_candidates` on a nonempty list returns the first input candidate
attaining the maximal score: its score dominates every candidate, and every
earlier candidate scores strictly less. -/
theorem rank_spec (cs : List Product) (t : ℚ) (tier : String) (hne : cs ≠ []) :
    ∃ i : Fin cs.length,
      rank_candidates cs t tier = cs.get i ∧
      (∀ j : Fin cs.length, score tier t (cs.get j) ≤ score tier t (cs.get i)) ∧
      (∀ j : Fin cs.length, (j : ℕ) < (i : ℕ) →
        score tier t (cs.get j) < score tier t (cs.get i)) := by
  have hrank : rank_candidates cs t tier =
      ((List.insertionSort rankOrd
        ((tagIdx 0 cs).map (fun ic => (score tier t ic.2, ic.1, ic.2)))).headD
          (0, 0, default)).2.2 := rfl
  set scored := (tagIdx 0 cs).map (fun ic => (score tier t ic.2, ic.1, ic.2)) with hscored
  have hperm := List.perm_insertionSort rankOrd scored
  cases hsort : List.insertionSort rankOrd scored with
  | nil =>
    exfalso
    rw [hsort] at hperm
    exact tagIdx_ne_nil hne 0 (List.map_eq_nil_iff.mp hperm.symm.eq_nil)
  | cons hd tl =>
    rw [hsort] at hperm
    have hmemhd : hd ∈ scored := hperm.mem_iff.mp (List.mem_cons_self hd tl)
    rw [hscored, List.mem_map] at hmemhd
    obtain ⟨ic, hic, hic2⟩ := hmemhd
    obtain ⟨i, hi, hieq, hval⟩ := mem_tagIdx hic
    have hhd : hd = (score tier t (cs.get ⟨i, hi⟩), i, cs.get ⟨i, hi⟩) := by
      rw [← hic2, hval, hieq]
      simp
    have hsorted := List.sorted_insertionSort rankOrd scored
    rw [hsort, List.sorted_cons] at hsorted
    obtain ⟨hall, _⟩ := hsorted
    have key : ∀ j : Fin cs.length,
        score tier t (cs.get j) ≤ score tier t (cs.get ⟨i, hi⟩) ∧
        ((j : ℕ) < i → score tier t (cs.get j) < score tier t (cs.get ⟨i, hi⟩)) := by
      intro j
      have hjmem : (score tier t (cs.get j), (j : ℕ), cs.get j) ∈ scored := by
        rw [hscored, List.mem_map]
        refine ⟨((j : ℕ), cs.get j), ?_, rfl⟩
        have := tagIdx_mem cs 0 j j.isLt
        simpa using this
      rcases List.mem_cons.mp (hperm.symm.mem_iff.mp hjmem) with heq | hmem
      · rw [hhd] at heq
        have h1 : score tier t (cs.get j) = score tier t (cs.get ⟨i, hi⟩) :=
          congrArg Prod.fst heq
        have h2 : (j : ℕ) = i := congrArg (fun p => p.2.1) heq
        exact ⟨le_of_eq h1, fun hji => absurd h2 (Nat.ne_of_lt hji)⟩
      · have hord := hall _ hmem
        rw [hhd] at hord
        rcases hord with hlt | ⟨heq, hle⟩
        · exact ⟨le_of_lt hlt, fun _ => hlt⟩
        · refine ⟨le_of_eq heq.symm, fun hji => ?_⟩
          have hle' : i ≤ (j : ℕ) := by simpa using hle
          omega
    refine ⟨⟨i, hi⟩, ?_, fun j => (key j).1, fun j => (key j).2⟩
    rw [hrank, hsort]
    simp [hhd]

/-- The winner returned by `rank_candidates` is one of the candidates. -/
theorem rank_mem (cs : List Product) (t : ℚ) (tier : String) (hne : cs ≠ []) :
    rank_candidates cs t tier ∈ cs := by
  obtain ⟨i, heq, _, _⟩ := rank_spec cs t tier hne
  rw [heq]
  exact List.get_mem _ _ _

/-! ## Static-table facts -/

theorem alloc_pair_bounds (rt : String) (pr : String × ℚ × ℚ)
    (hpr : pr ∈ ROOM_BUDGET_ALLOCATION rt) : 0 ≤ pr.2.2 ∧ pr.2.2 ≤ 1 := by
  unfold ROOM_BUDGET_ALLOCATION at hpr
  split_ifs at hpr <;> fin_cases hpr <;> norm_num

theorem requiredAlloc_bounds (rt : String) (nm : String) :
    0 ≤ (requiredAlloc (ROOM_BUDGET_ALLOCATION rt) nm).2 ∧
    (requiredAlloc (ROOM_BUDGET_ALLOCATION rt) nm).2 ≤ 1 := by
  unfold requiredAlloc
  cases h1 : assocLookup (ROOM_BUDGET_ALLOCATION rt) (firstSeg nm) with
  | some v =>
    have := alloc_pair_bounds rt _ (assocLookup_mem h1)
    simpa using this
  | none =>
    cases h2 : assocLookup (ROOM_BUDGET_ALLOCATION rt) nm with
    | some w =>
      have := alloc_pair_bounds rt _ (assocLookup_mem h2)
      simpa using this
    | none => norm_num

theorem req_qty_ge_one (rt : String) (s : SlotReq)
    (hs : s ∈ (ROOM_FURNITURE_REQUIREMENTS rt).required) : 1 ≤ s.quantity.upper := by
  unfold ROOM_FURNITURE_REQUIREMENTS reqTable at hs
  split_ifs at hs <;> simp only [Option.getD_some, Option.getD_none] at hs <;>
    fin_cases hs <;> decide

theorem req_names_nodup (rt : String) :
    (((ROOM_FURNITURE_REQUIREMENTS rt).required.map (fun s => s.slot)) ++
     ((ROOM_FURNITURE_REQUIREMENTS rt).optional.map (fun s => s.slot))).Nodup := by
  unfold ROOM_FURNITURE_REQUIREMENTS reqTable
  split_ifs <;> with_unfolding_all decide

/-! ## Run invariants: budget accounting -/

/-- Invariant carried through both slot loops: the remaining budget never goes
negative, spent and remaining always sum to the original budget, and every
purchase so far happened with strictly positive remaining budget. -/
def StInv (budget : ℚ) (st : MState) : Prop :=
  0 ≤ st.remaining ∧ st.spent + st.remaining = budget ∧
    ∀ pu ∈ st.purchases, 0 < pu.remainingBefore


theorem requiredStep_inv {ctx : Ctx} {st : MState} {slot : SlotReq}
    (hcat : ∀ p ∈ ctx.catalog, 0 < p.price)
    (halloc : ∀ nm, 0 ≤ (requiredAlloc ctx.allocations nm).2 ∧
      (requiredAlloc ctx.allocations nm).2 ≤ 1)
    (hq : 1 ≤ slot.quantity.upper)
    (hinv : StInv ctx.budget st) :
    StInv ctx.budget (requiredStep ctx st slot) := by
  obtain ⟨hrem, hacc, hpur⟩ := hinv
  have ha := halloc slot.slot
  have hq1 : (1 : ℚ) ≤ (slot.quantity.upper : ℚ) := by exact_mod_cast hq
  have hqnn : (0 : ℚ) ≤ (slot.quantity.upper : ℚ) := by linarith
  have hqne : ((slot.quantity.upper : ℕ) : ℚ) ≠ 0 := by
    intro h0; rw [h0] at hq1; linarith
  simp only [requiredStep]
  split
  · exact ⟨hrem, hacc, hpur⟩
  · rename_i c cs heq
    set a : ℚ := (requiredAlloc ctx.allocations slot.slot).2 with haq
    set q : ℚ := ((slot.quantity.upper : ℕ) : ℚ) with hqq
    set pib : ℚ := st.remaining * a / q with hpib
    set best : Product := rank_candidates (c :: cs) pib ctx.tier with hbest
    have hne : (c : Product) :: cs ≠ [] := by simp
    have hbq : best ∈ c :: cs := rank_mem _ _ _ hne
    rw [← heq] at hbq
    obtain ⟨hbcat, hbmatch⟩ := mem_query hbq
    have hp0 : 0 < best.price := hcat _ hbcat
    have hple : best.price ≤ pib := matches_price_le hbmatch rfl
    have hcancel : q * (st.remaining * a / q) = st.remaining * a := by
      field_simp
    have hqp : q * best.price ≤ st.remaining := by
      have h2 := mul_le_mul_of_nonneg_left hple hqnn
      rw [hpib, hcancel] at h2
      nlinarith [ha.1, ha.2, hrem]
    refine ⟨?_, ?_, ?_⟩
    · show (0:ℚ) ≤ st.remaining - q * best.price
      linarith
    · show st.spent + q * best.price + (st.remaining - q * best.price) = ctx.budget
      ring_nf
      ring_nf at hacc
      linarith
    · intro pu hpu
      simp only [List.mem_append] at hpu
      rcases hpu with hold | hnew
      · exact hpur pu hold
      · rw [List.mem_map] at hnew
        obtain ⟨i, hi, hieq⟩ := hnew
        rw [List.mem_range] at hi
        have hiq : ((i : ℕ) : ℚ) ≤ q - 1 := by
          have h1 : ((i : ℕ) : ℚ) + 1 ≤ ((slot.quantity.upper : ℕ) : ℚ) := by
            exact_mod_cast Nat.succ_le_of_lt hi
          rw [hqq]
          linarith
        have hib := mul_le_mul_of_nonneg_right hiq hp0.le
        have hexp : (q - 1) * best.price = q * best.price - best.price := by ring
        rw [hexp] at hib
        rw [← hieq]
        show (0:ℚ) < st.remaining - (i : ℚ) * best.price
        linarith [hp0, hqp, hib]

theorem runRequired_inv {ctx : Ctx} {slots : List SlotReq}
    (hcat : ∀ p ∈ ctx.catalog, 0 < p.price)
    (halloc : ∀ nm, 0 ≤ (requiredAlloc ctx.allocations nm).2 ∧
      (requiredAlloc ctx.allocations nm).2 ≤ 1)
    (hqs : ∀ s ∈ slots, 1 ≤ s.quantity.upper) :
    ∀ {st : MState}, StInv ctx.budget st → StInv ctx.budget (runRequired ctx st slots) := by
  induction slots with
  | nil => intro st h; exact h
  | cons s rest ih =>
    intro st h
    rw [runRequired]
    exact ih (fun s hs => hqs s (List.mem_cons_of_mem _ hs))
      (requiredStep_inv hcat halloc (hqs s (List.mem_cons_self _ _)) h)

theorem runOptional_inv {ctx : Ctx} {slots : List SlotReq}
    (hcat : ∀ p ∈ ctx.catalog, 0 < p.price) :
    ∀ {st : MState}, StInv ctx.budget st → StInv ctx.budget (runOptional ctx st slots) := by
  induction slots with
  | nil => intro st h; exact h
  | cons s rest ih =>
    intro st h
    obtain ⟨hrem, hacc, hpur⟩ := h
    simp only [runOptional]
    split
    · exact ⟨hrem, hacc, hpur⟩
    · rename_i hpos
      push_neg at hpos
      set sb : ℚ := min (st.remaining * (4/10)) (ctx.budget * (optionalAlloc ctx.allocations s.slot).2) with hsbq
      split
      · exact ih ⟨hrem, hacc, hpur⟩
      · split
        · exact ih ⟨hrem, hacc, hpur⟩
        · rename_i hfloor c cs heq
          set best : Product := rank_candidates (c :: cs) (sb * (7/10)) ctx.tier with hbest
          have hne : (c : Product) :: cs ≠ [] := by simp
          have hbq : best ∈ c :: cs := rank_mem _ _ _ hne
          rw [← heq] at hbq
          obtain ⟨hbcat, hbmatch⟩ := mem_query hbq
          have hp0 : 0 < best.price := hcat _ hbcat
          have hple : best.price ≤ sb := matches_price_le hbmatch rfl
          have hsble : sb ≤ st.remaining * (4/10) := min_le_left _ _
          apply ih
          refine ⟨?_, ?_, ?_⟩
          · show (0:ℚ) ≤ st.remaining - best.price
            linarith
          · show st.spent + best.price + (st.remaining - best.price) = ctx.budget
            ring_nf
            ring_nf at hacc
            linarith
          · intro pu hpu
            simp only [List.mem_append, List.mem_singleton] at hpu
            rcases hpu with hold | rfl
            · exact hpur pu hold
            · exact hpos

/-! ## Run invariants: cent-exactness -/

def CentInv (st : MState) : Prop := IsCent st.spent ∧ IsCent st.remaining

theorem requiredStep_cent {ctx : Ctx} {st : MState} {slot : SlotReq}
    (hcat : ∀ p ∈ ctx.catalog, IsCent p.price)
    (h : CentInv st) : CentInv (requiredStep ctx st slot) := by
  obtain ⟨hs, hr⟩ := h
  simp only [requiredStep]
  split
  · exact ⟨hs, hr⟩
  · rename_i c cs heq
    set pib : ℚ := st.remaining * (requiredAlloc ctx.allocations slot.slot).2 /
      ((slot.quantity.upper : ℕ) : ℚ) with hpib
    set best : Product := rank_candidates (c :: cs) pib ctx.tier with hbest
    have hne : (c : Product) :: cs ≠ [] := by simp
    have hbq : best ∈ c :: cs := rank_mem _ _ _ hne
    rw [← heq] at hbq
    obtain ⟨hbcat, _⟩ := mem_query hbq
    have hbp : IsCent best.price := hcat _ hbcat
    exact ⟨hs.add (IsCent.natMul _ hbp), hr.sub (IsCent.natMul _ hbp)⟩

theorem runRequired_cent {ctx : Ctx} {slots : List SlotReq}
    (hcat : ∀ p ∈ ctx.catalog, IsCent p.price) :
    ∀ {st : MState}, CentInv st → CentInv (runRequired ctx st slots) := by
  induction slots with
  | nil => intro st h; exact h
  | cons s rest ih =>
    intro st h
    rw [runRequired]
    exact ih (requiredStep_cent hcat h)

theorem runOptional_cent {ctx : Ctx} {slots : List SlotReq}
    (hcat : ∀ p ∈ ctx.catalog, IsCent p.price) :
    ∀ {st : MState}, CentInv st → CentInv (runOptional ctx st slots) := by
  induction slots with
  | nil => intro st h; exact h
  | cons s rest ih =>
    intro st h
    obtain ⟨hs, hr⟩ := h
    simp only [runOptional]
    split
    · exact ⟨hs, hr⟩
    · set sb : ℚ := min (st.remaining * (4/10))
        (ctx.budget * (optionalAlloc ctx.allocations s.slot).2) with hsbq
      split
      · exact ih ⟨hs, hr⟩
      · split
        · exact ih ⟨hs, hr⟩
        · rename_i hfloor c cs heq
          set best : Product := rank_candidates (c :: cs) (sb * (7/10)) ctx.tier with hbest
          have hne : (c : Product) :: cs ≠ [] := by simp
          have hbq : best ∈ c :: cs := rank_mem _ _ _ hne
          rw [← heq] at hbq
          obtain ⟨hbcat, _⟩ := mem_query hbq
          have hbp : IsCent best.price := hcat _ hbcat
          exact ih ⟨hs.add hbp, hr.sub hbp⟩

/-! ## Audit-log provenance -/

/-- Every item a step picked carries the step's slot name. -/
def PickWF (stp : StepRec) : Prop := ∀ it ∈ stp.picked, it.slot = stp.slotName

/-- Shape facts of a required-phase log record. -/
def ReqWF (stp : StepRec) : Prop :=
  stp.phase = .required ∧ PickWF stp ∧
  ∃ ps cands, stp.query = some (ps, cands) ∧
    ps.min_price = some (stp.perItemBudget * (3/10)) ∧
    ps.max_price = some stp.perItemBudget ∧
    (cands = [] → stp.picked = [])

/-- Shape facts of an optional-phase log record. -/
def OptWF (budget : ℚ) (allocations : List (String × ℚ × ℚ)) (stp : StepRec) : Prop :=
  stp.phase = .optional ∧ PickWF stp ∧
  stp.slotBudget = min (stp.remainingBefore * (4/10))
    (budget * (optionalAlloc allocations stp.slotName).2) ∧
  (stp.slotBudget < 15 → stp.query = none ∧ stp.picked = []) ∧
  ∀ ps cands, stp.query = some (ps, cands) →
    ps.min_price = none ∧ ps.max_price = some stp.slotBudget ∧
    (cands = [] → stp.picked = [])

theorem requiredStep_delta (ctx : Ctx) (st : MState) (s : SlotReq) :
    ∃ rec : StepRec,
      (requiredStep ctx st s).log = st.log ++ [rec] ∧
      (requiredStep ctx st s).selected = st.selected ++ rec.picked ∧
      rec.slotName = s.slot ∧ ReqWF rec := by
  simp only [requiredStep]
  split
  · refine ⟨_, rfl, by simp, rfl, rfl, by simp [PickWF], ?_⟩
    exact ⟨_, _, rfl, rfl, rfl, fun _ => rfl⟩
  · rename_i c cs heq
    refine ⟨_, rfl, rfl, rfl, rfl, ?_, ?_⟩
    · intro it hit
      rw [List.eq_of_mem_replicate hit]
    · refine ⟨_, _, rfl, rfl, rfl, ?_⟩
      intro hc
      simp at hc

theorem runRequired_delta (ctx : Ctx) : ∀ (slots : List SlotReq) (st : MState),
    ∃ Δ : List StepRec,
      (runRequired ctx st slots).log = st.log ++ Δ ∧
      (runRequired ctx st slots).selected =
        st.selected ++ (Δ.map (fun stp => stp.picked)).flatten ∧
      Δ.map (fun stp => stp.slotName) = slots.map (fun s => s.slot) ∧
      ∀ stp ∈ Δ, ReqWF stp := by
  intro slots
  induction slots with
  | nil =>
    intro st
    exact ⟨[], by simp [runRequired], by simp [runRequired], by simp, by simp⟩
  | cons s rest ih =>
    intro st
    rw [runRequired]
    obtain ⟨rec, hl, hsel, hnm, hwf⟩ := requiredStep_delta ctx st s
    obtain ⟨Δ, h1, h2, h3, h4⟩ := ih (requiredStep ctx st s)
    refine ⟨rec :: Δ, ?_, ?_, ?_, ?_⟩
    · rw [h1, hl, List.append_assoc]
      simp
    · rw [h2, hsel]
      simp [List.append_assoc]
    · simp [h3, hnm]
    · intro stp hstp
      rcases List.mem_cons.mp hstp with rfl | hmem
      · exact hwf
      · exact h4 stp hmem


theorem runOptional_delta (ctx : Ctx) : ∀ (slots : List SlotReq) (st : MState),
    ∃ Δ : List StepRec,
      (runOptional ctx st slots).log = st.log ++ Δ ∧
      (runOptional ctx st slots).selected =
        st.selected ++ (Δ.map (fun stp => stp.picked)).flatten ∧
      (∃ k, Δ.map (fun stp => stp.slotName) = (slots.map (fun s => s.slot)).take k) ∧
      ∀ stp ∈ Δ, OptWF ctx.budget ctx.allocations stp := by
  intro slots
  induction slots with
  | nil =>
    intro st
    exact ⟨[], by simp [runOptional], by simp [runOptional], ⟨0, by simp⟩, by simp⟩
  | cons s rest ih =>
    intro st
    simp only [runOptional]
    split
    · exact ⟨[], by simp, by simp, ⟨0, by simp⟩, by simp⟩
    · rename_i hpos
      set sb : ℚ := min (st.remaining * (4/10))
        (ctx.budget * (optionalAlloc ctx.allocations s.slot).2) with hsbdef
      split
      · rename_i hfloor
        set rec : StepRec := ⟨.optional, s.slot, st.remaining, sb, sb, none, []⟩ with hrec
        obtain ⟨Δ, h1, h2, h3, h4⟩ := ih { st with log := st.log ++ [rec] }
        obtain ⟨k, hk⟩ := h3
        refine ⟨rec :: Δ, ?_, ?_, ⟨k + 1, ?_⟩, ?_⟩
        · rw [h1]
          simp [List.append_assoc]
        · rw [h2]
          simp [hrec]
        · simp [hk, hrec]
        · intro stp hstp
          rcases List.mem_cons.mp hstp with rfl | hmem
          · exact ⟨rfl, by simp [PickWF, hrec], rfl, fun _ => ⟨rfl, rfl⟩, by simp [hrec]⟩
          · exact h4 stp hmem
      · rename_i hfloor
        split
        · rename_i heq
          set ps : QueryParams := {
            categories := s.categories,
            max_price := some sb,
            style := ctx.style,
            max_width := get_max_dimension_for_slot s.slot ctx.room,
            preferred_sources := ctx.tierCfg.preferred_sources,
            require_usable_image := true,
            limit := 3 } with hps
          set rec : StepRec := ⟨.optional, s.slot, st.remaining, sb, sb, some (ps, []), []⟩ with hrec
          obtain ⟨Δ, h1, h2, h3, h4⟩ := ih { st with log := st.log ++ [rec] }
          obtain ⟨k, hk⟩ := h3
          refine ⟨rec :: Δ, ?_, ?_, ⟨k + 1, ?_⟩, ?_⟩
          · rw [h1]
            simp [List.append_assoc]
          · rw [h2]
            simp [hrec]
          · simp [hk, hrec]
          · intro stp hstp
            rcases List.mem_cons.mp hstp with rfl | hmem
            · refine ⟨rfl, by simp [PickWF, hrec], rfl, fun hlt => absurd hlt hfloor, ?_⟩
              intro ps2 cands2 h
              simp only [hrec, Option.some.injEq, Prod.mk.injEq] at h
              obtain ⟨hps2, hcands2⟩ := h
              rw [← hps2]
              exact ⟨rfl, rfl, fun _ => rfl⟩
            · exact h4 stp hmem
        · rename_i c cs heq
          set ps : QueryParams := {
            categories := s.categories,
            max_price := some sb,
            style := ctx.style,
            max_width := get_max_dimension_for_slot s.slot ctx.room,
            preferred_sources := ctx.tierCfg.preferred_sources,
            require_usable_image := true,
            limit := 3 } with hps
          set best : Product := rank_candidates (c :: cs) (sb * (7/10)) ctx.tier with hbest
          set item : SelectedItem := ⟨s.slot, best, 1, get_placement_for_slot s.slot ctx.room⟩
            with hitem
          set rec : StepRec := ⟨.optional, s.slot, st.remaining, sb, sb, some (ps, c :: cs), [item]⟩
            with hrec
          obtain ⟨Δ, h1, h2, h3, h4⟩ := ih
            { selected := st.selected ++ [item],
              remaining := st.remaining - best.price,
              spent := st.spent + best.price,
              purchases := st.purchases ++ [⟨s.slot, best.price, st.remaining⟩],
              log := st.log ++ [rec] }
          obtain ⟨k, hk⟩ := h3
          refine ⟨rec :: Δ, ?_, ?_, ⟨k + 1, ?_⟩, ?_⟩
          · rw [h1]
            simp [List.append_assoc]
          · rw [h2]
            simp [hrec, List.append_assoc]
          · simp [hk, hrec]
          · intro stp hstp
            rcases List.mem_cons.mp hstp with rfl | hmem
            · refine ⟨rfl, ?_, rfl, fun hlt => absurd hlt hfloor, ?_⟩
              · intro it hit
                simp only [hrec, List.mem_singleton] at hit
                rw [hit, hitem]
              · intro ps2 cands2 h
                simp only [hrec, Option.some.injEq, Prod.mk.injEq] at h
                obtain ⟨hps2, hcands2⟩ := h
                rw [← hps2]
                refine ⟨rfl, rfl, fun hc => ?_⟩
                rw [← hcands2] at hc
                simp at hc
            · exact h4 stp hmem

theorem matchRun_delta {room : Room} {budget : ℚ} {tier : String} {style : Option String}
    {catalog : List Product} {st : MState}
    (h : matchRun room budget tier style catalog = .ok st) :
    ∃ Δr Δo : List StepRec,
      st.log = Δr ++ Δo ∧
      st.selected = ((Δr ++ Δo).map (fun stp => stp.picked)).flatten ∧
      Δr.map (fun stp => stp.slotName) =
        (ROOM_FURNITURE_REQUIREMENTS room.type).required.map (fun s => s.slot) ∧
      (∃ k, Δo.map (fun stp => stp.slotName) =
        ((ROOM_FURNITURE_REQUIREMENTS room.type).optional.map (fun s => s.slot)).take k) ∧
      (∀ stp ∈ Δr, ReqWF stp) ∧
      (∀ stp ∈ Δo, OptWF budget (ROOM_BUDGET_ALLOCATION room.type) stp) := by
  unfold matchRun at h
  split at h
  · cases h
  · rename_i tc htier
    rw [Except.ok.injEq] at h
    subst h
    obtain ⟨Δr, hr1, hr2, hr3, hr4⟩ :=
      runRequired_delta ⟨room, budget, tier, style, tc, ROOM_BUDGET_ALLOCATION room.type, catalog⟩
        (ROOM_FURNITURE_REQUIREMENTS room.type).required ⟨[], budget, 0, [], []⟩
    obtain ⟨Δo, ho1, ho2, ho3, ho4⟩ :=
      runOptional_delta ⟨room, budget, tier, style, tc, ROOM_BUDGET_ALLOCATION room.type, catalog⟩
        (ROOM_FURNITURE_REQUIREMENTS room.type).optional
        (runRequired ⟨room, budget, tier, style, tc, ROOM_BUDGET_ALLOCATION room.type, catalog⟩
          ⟨[], budget, 0, [], []⟩ (ROOM_FURNITURE_REQUIREMENTS room.type).required)
    refine ⟨Δr, Δo, ?_, ?_, hr3, ho3, hr4, ho4⟩
    · rw [ho1, hr1]
      simp
    · rw [ho2, hr2]
      simp [List.map_append, List.flatten_append]

theorem flatten_filter_nil {Δ : List StepRec} {nm : String}
    (hwf : ∀ stp ∈ Δ, ∀ it ∈ stp.picked, it.slot = stp.slotName)
    (hnm : nm ∉ Δ.map (fun stp => stp.slotName)) :
    ((Δ.map (fun stp => stp.picked)).flatten).filter (fun it => it.slot == nm) = [] := by
  induction Δ with
  | nil => simp
  | cons hd rest ih =>
    simp only [List.map_cons, List.flatten_cons, List.filter_append]
    rw [List.mem_map] at hnm
    push_neg at hnm
    have hhd : hd.slotName ≠ nm := hnm hd (List.mem_cons_self _ _)
    have h1 : hd.picked.filter (fun it => it.slot == nm) = [] := by
      rw [List.filter_eq_nil_iff]
      intro it hit
      have := hwf hd (List.mem_cons_self _ _) it hit
      simp [this, hhd]
    have h2 := ih (fun stp hs => hwf stp (List.mem_cons_of_mem _ hs)) (by
      rw [List.mem_map]
      push_neg
      intro stp hs
      exact hnm stp (List.mem_cons_of_mem _ hs))
    rw [h1, h2]
    simp

theorem flatten_filter_eq {Δ : List StepRec} {stp : StepRec}
    (hnd : (Δ.map (fun s => s.slotName)).Nodup)
    (hwf : ∀ s ∈ Δ, ∀ it ∈ s.picked, it.slot = s.slotName)
    (hstp : stp ∈ Δ) :
    ((Δ.map (fun s => s.picked)).flatten).filter (fun it => it.slot == stp.slotName) =
      stp.picked := by
  induction Δ with
  | nil => cases hstp
  | cons hd rest ih =>
    simp only [List.map_cons, List.flatten_cons, List.filter_append]
    simp only [List.map_cons, List.nodup_cons] at hnd
    rcases List.mem_cons.mp hstp with rfl | hmem
    · have h1 : stp.picked.filter (fun it => it.slot == stp.slotName) = stp.picked := by
        rw [List.filter_eq_self]
        intro it hit
        have := hwf stp (List.mem_cons_self _ _) it hit
        simp [this]
      have h2 : ((rest.map (fun s => s.picked)).flatten).filter
          (fun it => it.slot == stp.slotName) = [] :=
        flatten_filter_nil (fun s hs => hwf s (List.mem_cons_of_mem _ hs)) hnd.1
      rw [h1, h2, List.append_nil]
    · have hne : hd.slotName ≠ stp.slotName := by
        intro hcontra
        apply hnd.1
        rw [hcontra, List.mem_map]
        exact ⟨stp, hmem, rfl⟩
      have h1 : hd.picked.filter (fun it => it.slot == stp.slotName) = [] := by
        rw [List.filter_eq_nil_iff]
        intro it hit
        have := hwf hd (List.mem_cons_self _ _) it hit
        simp [this, hne]
      have h2 := ih hnd.2 (fun s hs => hwf s (List.mem_cons_of_mem _ hs)) hmem
      rw [h1, h2]
      simp

/-! ## Distributor lemmas -/

theorem assocInsert_notMem {α : Type} {acc : List (String × α)} {k : String} {v : α}
    (h : ∀ kv ∈ acc, kv.1 ≠ k) : assocInsert acc k v = acc ++ [(k, v)] := by
  induction acc with
  | nil => rfl
  | cons kv rest ih =>
    rw [assocInsert]
    rw [if_neg (h kv (List.mem_cons_self _ _))]
    rw [ih (fun kv2 h2 => h kv2 (List.mem_cons_of_mem _ h2))]
    simp

theorem weights_foldl : ∀ (rooms : List Room) (acc : List (String × ℚ)),
    (rooms.map (fun r => r.id)).Nodup →
    (∀ r ∈ rooms, ∀ kv ∈ acc, kv.1 ≠ r.id) →
    rooms.foldl (fun acc room => assocInsert acc room.id (roomWeight room)) acc =
      acc ++ rooms.map (fun r => (r.id, roomWeight r)) := by
  intro rooms
  induction rooms with
  | nil => intro acc _ _; simp
  | cons r rest ih =>
    intro acc hnd hdis
    rw [List.foldl_cons]
    rw [assocInsert_notMem (hdis r (List.mem_cons_self _ _))]
    rw [List.map_cons, List.nodup_cons] at hnd
    rw [ih (acc ++ [(r.id, roomWeight r)]) hnd.2 ?hdis2]
    · simp
    case hdis2 =>
      intro r2 hr2 kv hkv
      rcases List.mem_append.mp hkv with hl | hr
      · exact hdis r2 (List.mem_cons_of_mem _ hr2) kv hl
      · rw [List.mem_singleton] at hr
        rw [hr]
        intro hcontra
        simp only at hcontra
        apply hnd.1
        rw [hcontra, List.mem_map]
        exact ⟨r2, hr2, rfl⟩

theorem map_div_mul_sum (l : List ℚ) (W T : ℚ) :
    (l.map (fun w => w / W * T)).sum = l.sum / W * T := by
  induction l with
  | nil => simp
  | cons w rest ih =>
    simp only [List.map_cons, List.sum_cons, ih]
    ring

theorem distribute_spec {rooms : List Room} {total : ℚ}
    (hne : rooms ≠ []) (hnd : (rooms.map (fun r => r.id)).Nodup)
    (hW : (rooms.map roomWeight).sum ≠ 0) :
    distribute_budget_across_rooms rooms total =
      .ok (rooms.map (fun r =>
        (r.id, round2 (roomWeight r / (rooms.map roomWeight).sum * total)))) := by
  unfold distribute_budget_across_rooms
  rw [weights_foldl rooms [] hnd (by simp)]
  simp only [List.nil_append]
  have hvals : (rooms.map (fun r => (r.id, roomWeight r))).map (fun p => p.2) =
      rooms.map roomWeight := by
    rw [List.map_map]
    rfl
  rw [hvals]
  rw [if_neg ?hne2, if_neg hW]
  · rw [List.map_map]
    rfl
  case hne2 =>
    simp only [List.isEmpty_iff, List.map_eq_nil_iff]
    exact hne

/-! ## Matcher-level consequences -/

theorem round2_zero : round2 0 = 0 := IsCent.zero.round2_eq

theorem requiredStep_acc {ctx : Ctx} {st : MState} {slot : SlotReq}
    (h : st.spent + st.remaining = ctx.budget) :
    (requiredStep ctx st slot).spent + (requiredStep ctx st slot).remaining = ctx.budget := by
  simp only [requiredStep]
  split
  · exact h
  · show st.spent + _ * _ + (st.remaining - _ * _) = ctx.budget
    ring_nf
    ring_nf at h
    linarith

theorem runRequired_acc {ctx : Ctx} {slots : List SlotReq} :
    ∀ {st : MState}, st.spent + st.remaining = ctx.budget →
      (runRequired ctx st slots).spent + (runRequired ctx st slots).remaining = ctx.budget := by
  induction slots with
  | nil => intro st h; exact h
  | cons s rest ih =>
    intro st h
    rw [runRequired]
    exact ih (requiredStep_acc h)

theorem runOptional_acc {ctx : Ctx} {slots : List SlotReq} :
    ∀ {st : MState}, st.spent + st.remaining = ctx.budget →
      (runOptional ctx st slots).spent + (runOptional ctx st slots).remaining = ctx.budget := by
  induction slots with
  | nil => intro st h; exact h
  | cons s rest ih =>
    intro st h
    simp only [runOptional]
    split
    · exact h
    · split
      · exact ih h
      · split
        · exact ih h
        · apply ih
          show st.spent + _ + (st.remaining - _) = ctx.budget
          ring_nf
          ring_nf at h
          linarith

theorem matchRun_acc {room : Room} {budget : ℚ} {tier : String} {style : Option String}
    {catalog : List Product} {st : MState}
    (h : matchRun room budget tier style catalog = .ok st) :
    st.spent + st.remaining = budget := by
  unfold matchRun at h
  split at h
  · cases h
  · rw [Except.ok.injEq] at h
    subst h
    exact runOptional_acc (runRequired_acc (by simp))

theorem matchRun_inv {room : Room} {budget : ℚ} {tier : String} {style : Option String}
    {catalog : List Product} {st : MState}
    (h : matchRun room budget tier style catalog = .ok st)
    (hb : 0 ≤ budget) (hcat : ∀ p ∈ catalog, 0 < p.price) :
    StInv budget st := by
  unfold matchRun at h
  split at h
  · cases h
  · rename_i tc htier
    rw [Except.ok.injEq] at h
    subst h
    have h0 : StInv budget (⟨[], budget, 0, [], []⟩ : MState) := ⟨hb, by simp, by simp⟩
    have h1 := @runRequired_inv
      ⟨room, budget, tier, style, tc, ROOM_BUDGET_ALLOCATION room.type, catalog⟩
      (ROOM_FURNITURE_REQUIREMENTS room.type).required hcat
      (fun nm => requiredAlloc_bounds room.type nm)
      (fun s hs => req_qty_ge_one room.type s hs) ⟨[], budget, 0, [], []⟩ h0
    exact @runOptional_inv
      ⟨room, budget, tier, style, tc, ROOM_BUDGET_ALLOCATION room.type, catalog⟩
      (ROOM_FURNITURE_REQUIREMENTS room.type).optional hcat _ h1

theorem matchRun_cent {room : Room} {budget : ℚ} {tier : String} {style : Option String}
    {catalog : List Product} {st : MState}
    (h : matchRun room budget tier style catalog = .ok st)
    (hb : IsCent budget) (hcat : ∀ p ∈ catalog, IsCent p.price) :
    CentInv st := by
  unfold matchRun at h
  split at h
  · cases h
  · rename_i tc htier
    rw [Except.ok.injEq] at h
    subst h
    have h1 := @runRequired_cent
      ⟨room, budget, tier, style, tc, ROOM_BUDGET_ALLOCATION room.type, catalog⟩
      (ROOM_FURNITURE_REQUIREMENTS room.type).required hcat
      ⟨[], budget, 0, [], []⟩ ⟨IsCent.zero, hb⟩
    exact @runOptional_cent
      ⟨room, budget, tier, style, tc, ROOM_BUDGET_ALLOCATION room.type, catalog⟩
      (ROOM_FURNITURE_REQUIREMENTS room.type).optional hcat _ h1

/-- The fields of a successfully returned MatchResult, in terms of the final
loop state. -/
theorem match_result_fields {room : Room} {budget : ℚ} {tier : String} {style : Option String}
    {catalog : List Product} {res : MatchResult}
    (h : match_furniture_for_room room budget tier style catalog = .ok res) :
    ∃ st, matchRun room budget tier style catalog = .ok st ∧ budget ≠ 0 ∧
      res.budget_total = budget ∧ res.budget_spent = round2 st.spent ∧
      res.budget_remaining = round2 st.remaining ∧ res.products = st.selected ∧
      res.product_count = st.selected.length := by
  unfold match_furniture_for_room at h
  split at h
  · cases h
  · rename_i st hst
    split at h
    · cases h
    · rename_i hb
      rw [Except.ok.injEq] at h
      subst h
      exact ⟨st, hst, hb, rfl, rfl, rfl, rfl, rfl⟩

/-! ## Result projections (used to state concrete evaluations) -/

def spentOf (e : Except MatchErr MatchResult) : ℚ :=
  match e with | .ok r => r.budget_spent | .error _ => 0

def remOf (e : Except MatchErr MatchResult) : ℚ :=
  match e with | .ok r => r.budget_remaining | .error _ => 0

def totalOf (e : Except MatchErr MatchResult) : ℚ :=
  match e with | .ok r => r.budget_total | .error _ => 0

def errOf (e : Except MatchErr MatchResult) : Option MatchErr :=
  match e with | .ok _ => none | .error er => some er

def distSumOf (e : Except MatchErr (List (String × ℚ))) : ℚ :=
  match e with | .ok l => (l.map (fun p => p.2)).sum | .error _ => 0

/-! ## Concrete fixtures for witnesses and counterexamples -/

def officeRoomEx : Room :=
  { id := "r1", type := "office", estimated_width_cm := 400, estimated_depth_cm := 300,
    estimated_area_sqm := some 12, usable_walls := [] }

def garageRoomEx : Room :=
  { id := "rg", type := "garage", estimated_width_cm := 500, estimated_depth_cm := 400,
    estimated_area_sqm := some 20, usable_walls := [] }

def livingRoomEx : Room :=
  { id := "rl", type := "living room", estimated_width_cm := 450, estimated_depth_cm := 380,
    estimated_area_sqm := some (171/10), usable_walls := [] }

/-- A catalog desk that passes every filter of the office desk-slot query at
budget €1000 (its price €399.99 is a whole number of cents, as the catalog's
`DECIMAL(10,2)` price column guarantees, and lies inside the query's
[120, 400] price window). -/
def deskProdEx : Product :=
  { name := "Desk A", price := 39999/100, category := "desk", room_type := some "office",
    proportion_w_h := some (3/2), in_stock := true, image_usable := true,
    r2_main_image_key := some "k1", source_domain := "ikea.bg" }

/-! ## Claim C1 -/

/-- C1 (counterexample): at budget €1.001 — `budget_eur` is an unconstrained
caller-supplied number, unlike catalog prices, which the `DECIMAL(10,2)`
column keeps at whole cents — and an empty catalog, the returned MatchResult
has `budget_spent + budget_remaining ≠ budget_total`: nothing is spent, so
`budget_spent = 0.00` and `budget_remaining = round(1.001, 2) = 1.00`, and
`0.00 + 1.00 = 1.00 ≠ 1.001`.  The discrepancy (a full 0.001) is three orders
of magnitude above double representation error, so CPython's float `round`
computes the same values and the same violated comparison. -/
theorem claim_C1_counterexample :
    (match_furniture_for_room officeRoomEx (1001/1000) "standard" none []).isOk = true ∧
    spentOf (match_furniture_for_room officeRoomEx (1001/1000) "standard" none []) +
      remOf (match_furniture_for_room officeRoomEx (1001/1000) "standard" none []) ≠
      totalOf (match_furniture_for_room officeRoomEx (1001/1000) "standard" none []) := by
  with_unfolding_all decide

/-- C1 (amended): for every invocation of `match_furniture_for_room` in which
`budget_eur` is a whole number of cents — catalog prices always are, per the
`DECIMAL(10,2)` price column, so the price hypothesis below is vacuous for
realizable catalogs — the returned MatchResult satisfies
`budget_spent + budget_remaining = budget_total` exactly, with `budget_total`
equal to the `budget_eur` argument.  A budget with a sub-cent fraction breaks
the identity, because the two reported fields are rounded to 2 decimals while
`budget_total` is not (see the counterexample). -/
theorem claim_C1 :
    ∀ (room : Room) (budget_eur : ℚ) (tier : String) (style : Option String)
      (catalog : List Product),
      IsCent budget_eur → (∀ p ∈ catalog, IsCent p.price) →
      ∀ res, match_furniture_for_room room budget_eur tier style catalog = .ok res →
        res.budget_total = budget_eur ∧
        res.budget_spent + res.budget_remaining = res.budget_total := by
  intro room budget tier style catalog hb hcat res hres
  obtain ⟨st, hrun, _, htot, hsp, hrm, _, _⟩ := match_result_fields hres
  obtain ⟨hcs, hcr⟩ := matchRun_cent hrun hb hcat
  have hacc := matchRun_acc hrun
  refine ⟨htot, ?_⟩
  rw [htot, hsp, hrm, hcs.round2_eq, hcr.round2_eq]
  exact hacc

theorem claim_C1_witness :
    IsCent (1000 : ℚ) ∧
    (∀ res, match_furniture_for_room officeRoomEx 1000 "standard" none [deskProdEx] = .ok res →
      res.budget_total = 1000 ∧ res.budget_spent + res.budget_remaining = res.budget_total) :=
  ⟨⟨100000, by norm_num⟩,
   claim_C1 officeRoomEx 1000 "standard" none [deskProdEx] ⟨100000, by norm_num⟩
     (by
       intro p hp
       rw [List.mem_singleton] at hp
       subst hp
       exact ⟨39999, by norm_num [deskProdEx]⟩)⟩

/-! ## Claim C2 -/

/-- C2 (confirmed): for every input with a nonnegative budget and a catalog of
positive prices, every purchase event of `match_furniture_for_room` happens
with strictly positive remaining budget (no item is ever purchased once
`remaining_budget <= 0`), and consequently the reported `budget_spent` never
exceeds `budget_total` by more than the half-cent rounding slack — in
particular never by a full extra item. -/
theorem claim_C2 :
    ∀ (room : Room) (budget_eur : ℚ) (tier : String) (style : Option String)
      (catalog : List Product),
      0 ≤ budget_eur → (∀ p ∈ catalog, 0 < p.price) →
      (∀ pu ∈ matchPurchases room budget_eur tier style catalog, 0 < pu.remainingBefore) ∧
      (∀ res, match_furniture_for_room room budget_eur tier style catalog = .ok res →
        res.budget_spent ≤ res.budget_total + 1/200) := by
  intro room budget tier style catalog hb hcat
  constructor
  · intro pu hpu
    unfold matchPurchases at hpu
    cases hrun : matchRun room budget tier style catalog with
    | error e => rw [hrun] at hpu; simp at hpu
    | ok st =>
      rw [hrun] at hpu
      exact (matchRun_inv hrun hb hcat).2.2 pu hpu
  · intro res hres
    obtain ⟨st, hrun, _, htot, hsp, _, _, _⟩ := match_result_fields hres
    obtain ⟨hr0, hacc, _⟩ := matchRun_inv hrun hb hcat
    have hle : st.spent ≤ budget := by linarith
    rw [htot, hsp]
    have := round2_le st.spent
    linarith

theorem claim_C2_witness :
    (0:ℚ) ≤ 1000 ∧
    ((∀ pu ∈ matchPurchases officeRoomEx 1000 "standard" none [deskProdEx],
        0 < pu.remainingBefore) ∧
     (∀ res, match_furniture_for_room officeRoomEx 1000 "standard" none [deskProdEx] = .ok res →
        res.budget_spent ≤ res.budget_total + 1/200)) :=
  ⟨by norm_num,
   claim_C2 officeRoomEx 1000 "standard" none [deskProdEx] (by norm_num)
     (by
       intro p hp
       rw [List.mem_singleton] at hp
       subst hp
       with_unfolding_all decide)⟩

/-! ## Claim C3 -/

/-- C3 (counterexample): for a room of the unknown type "garage" (absent from
the configuration tables) `match_furniture_for_room` does NOT fail: it returns
an ordinary MatchResult.  There is no `UnknownRoomTypeError` anywhere in the
code — both table lookups default (`.get(room_type, {})`). -/
theorem claim_C3_counterexample :
    reqTable garageRoomEx.type = none ∧
    (match_furniture_for_room garageRoomEx 1000 "standard" none []).isOk = true := by
  with_unfolding_all decide

/-- C3 (amended): for every room whose type is not in the static configuration
tables (and a known tier and nonzero budget, the only genuinely fatal
conditions), `match_furniture_for_room` raises nothing and returns a
MatchResult with an empty products list, zero product count and zero spend —
the unknown room type silently degrades to "no furniture requirements". -/
theorem claim_C3 :
    ∀ (room : Room) (budget_eur : ℚ) (tier : String) (style : Option String)
      (catalog : List Product),
      reqTable room.type = none → (BUDGET_TIERS tier).isSome = true → budget_eur ≠ 0 →
      (match_furniture_for_room room budget_eur tier style catalog).isOk = true ∧
      (∀ res, match_furniture_for_room room budget_eur tier style catalog = .ok res →
        res.products = [] ∧ res.product_count = 0 ∧ res.budget_spent = 0) := by
  intro room budget tier style catalog hreq htierS hb
  cases htier : BUDGET_TIERS tier with
  | none => rw [htier] at htierS; simp at htierS
  | some tc =>
    have hR : ROOM_FURNITURE_REQUIREMENTS room.type = ⟨[], []⟩ := by
      unfold ROOM_FURNITURE_REQUIREMENTS
      rw [hreq]
      rfl
    have hrun : matchRun room budget tier style catalog =
        .ok ⟨[], budget, 0, [], []⟩ := by
      unfold matchRun
      rw [htier, hR]
      rfl
    constructor
    · unfold match_furniture_for_room
      rw [hrun]
      simp [hb, Except.isOk, Except.toBool]
    · intro res hres
      obtain ⟨st, hrun2, _, _, hsp, _, hprod, hcount⟩ := match_result_fields hres
      rw [hrun] at hrun2
      have hst : st = ⟨[], budget, 0, [], []⟩ := (Except.ok.inj hrun2).symm
      subst hst
      refine ⟨by rw [hprod], by rw [hcount]; rfl, ?_⟩
      rw [hsp]
      exact round2_zero

theorem claim_C3_witness :
    reqTable garageRoomEx.type = none ∧ (BUDGET_TIERS "standard").isSome = true ∧
    ((match_furniture_for_room garageRoomEx 500 "standard" none [deskProdEx]).isOk = true ∧
     (∀ res, match_furniture_for_room garageRoomEx 500 "standard" none [deskProdEx] = .ok res →
        res.products = [] ∧ res.product_count = 0 ∧ res.budget_spent = 0)) :=
  ⟨by with_unfolding_all decide, by with_unfolding_all decide,
   claim_C3 garageRoomEx 500 "standard" none [deskProdEx]
     (by with_unfolding_all decide) (by with_unfolding_all decide) (by norm_num)⟩

/-! ## Claim C4 -/

/-- C4 (counterexample): two known-room-type inputs on which
`match_furniture_for_room` throws all the same: an unknown tier ("gold")
raises a KeyError at `BUDGET_TIERS[tier]`, and a zero budget raises
ZeroDivisionError in the `budget_utilization_pct` computation. -/
theorem claim_C4_counterexample :
    errOf (match_furniture_for_room officeRoomEx 1000 "gold" none []) =
      some .unknownTier ∧
    errOf (match_furniture_for_room officeRoomEx 0 "standard" none []) =
      some .divByZero := by
  with_unfolding_all decide

/-- C4 (amended): for every input with a tier among the four defined tiers and
a nonzero budget (any room type, any style, any catalog),
`match_furniture_for_room` never throws: it returns a MatchResult.  Unknown
tiers and zero budgets are the two further fatal conditions the claim missed;
all remaining conditions (no candidates, exhausted budget, low optional
budget, unknown room type) degrade into a returned result. -/
theorem claim_C4 :
    ∀ (room : Room) (budget_eur : ℚ) (tier : String) (style : Option String)
      (catalog : List Product),
      (BUDGET_TIERS tier).isSome = true → budget_eur ≠ 0 →
      (match_furniture_for_room room budget_eur tier style catalog).isOk = true := by
  intro room budget tier style catalog htierS hb
  cases htier : BUDGET_TIERS tier with
  | none => rw [htier] at htierS; simp at htierS
  | some tc =>
    have hrun : ∃ st, matchRun room budget tier style catalog = .ok st := by
      unfold matchRun
      rw [htier]
      exact ⟨_, rfl⟩
    obtain ⟨st, hst⟩ := hrun
    unfold match_furniture_for_room
    rw [hst]
    simp [hb, Except.isOk, Except.toBool]

theorem claim_C4_witness :
    (BUDGET_TIERS "standard").isSome = true ∧ ((1000:ℚ) ≠ 0) ∧
    (match_furniture_for_room officeRoomEx 1000 "standard" none []).isOk = true :=
  ⟨by with_unfolding_all decide, by norm_num,
   claim_C4 officeRoomEx 1000 "standard" none [] (by with_unfolding_all decide) (by norm_num)⟩

/-! ## Log-level helper lemmas -/

theorem matchLog_wf {room : Room} {budget : ℚ} {tier : String} {style : Option String}
    {catalog : List Product} {stp : StepRec}
    (hmem : stp ∈ matchLog room budget tier style catalog) :
    (stp.phase = .required → ReqWF stp) ∧
    (stp.phase = .optional → OptWF budget (ROOM_BUDGET_ALLOCATION room.type) stp) := by
  unfold matchLog at hmem
  cases hrun : matchRun room budget tier style catalog with
  | error e => rw [hrun] at hmem; simp at hmem
  | ok st =>
    rw [hrun] at hmem
    change stp ∈ st.log at hmem
    obtain ⟨Δr, Δo, hlog, _, _, _, hr4, ho4⟩ := matchRun_delta hrun
    rw [hlog] at hmem
    rcases List.mem_append.mp hmem with hmr | hmo
    · have wf := hr4 stp hmr
      refine ⟨fun _ => wf, fun hopt => ?_⟩
      rw [wf.1] at hopt
      simp at hopt
    · have wf := ho4 stp hmo
      refine ⟨fun hreq => ?_, fun _ => wf⟩
      rw [wf.1] at hreq
      simp at hreq

theorem log_step_products_filter {room : Room} {budget : ℚ} {tier : String}
    {style : Option String} {catalog : List Product} {stp : StepRec}
    (hmem : stp ∈ matchLog room budget tier style catalog)
    (hpicked : stp.picked = []) :
    (matchProducts room budget tier style catalog).filter
      (fun it => it.slot == stp.slotName) = [] := by
  unfold matchLog at hmem
  cases hrun : matchRun room budget tier style catalog with
  | error e => rw [hrun] at hmem; simp at hmem
  | ok st =>
    rw [hrun] at hmem
    have hprod : matchProducts room budget tier style catalog = st.selected := by
      unfold matchProducts
      rw [hrun]
    change stp ∈ st.log at hmem
    obtain ⟨Δr, Δo, hlog, hsel, hnr, ⟨k, hno⟩, hr4, ho4⟩ := matchRun_delta hrun
    rw [hlog] at hmem
    rw [hprod, hsel]
    have hnodup : ((Δr ++ Δo).map (fun s => s.slotName)).Nodup := by
      rw [List.map_append, hnr, hno]
      exact (req_names_nodup room.type).sublist
        (List.Sublist.append_left (List.take_sublist _ _) _)
    have hwf : ∀ s ∈ Δr ++ Δo, ∀ it ∈ s.picked, it.slot = s.slotName := by
      intro s hs
      rcases List.mem_append.mp hs with h | h
      · exact (hr4 s h).2.1
      · exact (ho4 s h).2.1
    rw [flatten_filter_eq hnodup hwf hmem, hpicked]

/-! ## Claim C5 -/

/-- C5 (counterexample): office room, €1000, empty catalog — both required
slots ("desk", "chair") find no candidate, yet the MatchResult records
nothing: its products list is empty (no `product: null` entries), and the
result carries no `unmet_required_slots` field at all (no such field exists in
the result the code builds).  Unmet required slots are silently omitted. -/
theorem claim_C5_counterexample :
    (match_furniture_for_room officeRoomEx 1000 "standard" none []).isOk = true ∧
    matchProducts officeRoomEx 1000 "standard" none [] = [] ∧
    (ROOM_FURNITURE_REQUIREMENTS "office").required.map (fun s => s.slot) =
      ["desk", "chair"] := by
  with_unfolding_all decide

/-- C5 (amended): a required slot whose catalog query returns no candidate is
silently omitted: the MatchResult's products list contains no entry for that
slot (neither a product nor a null marker); the unmet requirement is only
observable as absence. -/
theorem claim_C5 :
    ∀ (room : Room) (budget_eur : ℚ) (tier : String) (style : Option String)
      (catalog : List Product) (stp : StepRec),
      stp ∈ matchLog room budget_eur tier style catalog → stp.phase = .required →
      ∀ ps cands, stp.query = some (ps, cands) → cands = [] →
      (matchProducts room budget_eur tier style catalog).filter
        (fun it => it.slot == stp.slotName) = [] := by
  intro room budget tier style catalog stp hmem hph ps cands hq hcs
  obtain ⟨_, _, ps0, cands0, hq0, _, _, hnil⟩ := (matchLog_wf hmem).1 hph
  rw [hq, Option.some.injEq, Prod.mk.injEq] at hq0
  exact log_step_products_filter hmem (hnil (by rw [← hq0.2]; exact hcs))

def c5ps : QueryParams :=
  { categories := ["desk", "office desk"], room := some "office", style := none,
    min_price := some 120, max_price := some 400, max_width := 180,
    preferred_sources := ["videnov.bg", "ikea.bg", "aiko-bg.com"],
    require_usable_image := true, require_proportions := true, limit := 5 }

def c5rec : StepRec :=
  ⟨.required, "desk", 1000, 400, 400, some (c5ps, []), []⟩

theorem claim_C5_witness :
    c5rec ∈ matchLog officeRoomEx 1000 "standard" none [] ∧
    (matchProducts officeRoomEx 1000 "standard" none []).filter
      (fun it => it.slot == c5rec.slotName) = [] :=
  ⟨by with_unfolding_all decide,
   claim_C5 officeRoomEx 1000 "standard" none [] c5rec (by with_unfolding_all decide) rfl
     c5ps [] rfl rfl⟩

/-! ## Claim C7 -/

/-- C7 (confirmed): every optional slot the loop reaches has its budget
computed as `min(remaining_budget * 0.4, budget_total * upper_bound_of(allocation))`,
and whenever that budget is below the €15 floor the slot is skipped entirely:
the MatchResult's products list contains no entry for it (absent, not
null). -/
theorem claim_C7 :
    ∀ (room : Room) (budget_eur : ℚ) (tier : String) (style : Option String)
      (catalog : List Product) (stp : StepRec),
      stp ∈ matchLog room budget_eur tier style catalog → stp.phase = .optional →
      stp.slotBudget = min (stp.remainingBefore * (4/10))
        (budget_eur * (optionalAlloc (ROOM_BUDGET_ALLOCATION room.type) stp.slotName).2) ∧
      (stp.slotBudget < 15 →
        (matchProducts room budget_eur tier style catalog).filter
          (fun it => it.slot == stp.slotName) = []) := by
  intro room budget tier style catalog stp hmem hph
  have wf := (matchLog_wf hmem).2 hph
  exact ⟨wf.2.2.1, fun hfl => log_step_products_filter hmem (wf.2.2.2.1 hfl).2⟩

def c7rec : StepRec := ⟨.optional, "tv_unit", 40, 16/5, 16/5, none, []⟩

theorem claim_C7_witness :
    c7rec ∈ matchLog livingRoomEx 40 "standard" none [] ∧
    (c7rec.slotBudget = min (c7rec.remainingBefore * (4/10))
      ((40:ℚ) * (optionalAlloc (ROOM_BUDGET_ALLOCATION livingRoomEx.type) c7rec.slotName).2) ∧
     (c7rec.slotBudget < 15 →
       (matchProducts livingRoomEx 40 "standard" none []).filter
         (fun it => it.slot == c7rec.slotName) = [])) :=
  ⟨by with_unfolding_all decide,
   claim_C7 livingRoomEx 40 "standard" none [] c7rec (by with_unfolding_all decide) rfl⟩

/-! ## Claim C8 -/

def c8ps : QueryParams :=
  { categories := ["TV stand", "wall unit", "shelving"], room := none, style := none,
    min_price := none, max_price := some 160, max_width := 225,
    preferred_sources := ["videnov.bg", "ikea.bg", "aiko-bg.com"],
    require_usable_image := true, require_proportions := false, limit := 3 }

def c8rec : StepRec := ⟨.optional, "tv_unit", 2000, 160, 160, some (c8ps, []), []⟩

/-- C8 (counterexample): the optional tv_unit slot of a €2000 living-room run
issues a catalog query whose `min_price` is absent (None), not
`0.3 * per_item_budget` — the 0.3 floor is applied only by required-slot
queries. -/
theorem claim_C8_counterexample :
    c8rec ∈ matchLog livingRoomEx 2000 "standard" none [] ∧
    c8rec.query = some (c8ps, []) ∧ c8ps.min_price = none := by
  with_unfolding_all decide

/-- C8 (amended): every required-slot query passes the per-item budget as
`max_price` and `0.3 * per_item_budget` as `min_price`; every optional-slot
query passes the slot budget as `max_price` and NO `min_price`. -/
theorem claim_C8 :
    ∀ (room : Room) (budget_eur : ℚ) (tier : String) (style : Option String)
      (catalog : List Product) (stp : StepRec),
      stp ∈ matchLog room budget_eur tier style catalog →
      ∀ ps cands, stp.query = some (ps, cands) →
      (stp.phase = .required → ps.max_price = some stp.perItemBudget ∧
        ps.min_price = some (stp.perItemBudget * (3/10))) ∧
      (stp.phase = .optional → ps.max_price = some stp.slotBudget ∧ ps.min_price = none) := by
  intro room budget tier style catalog stp hmem ps cands hq
  constructor
  · intro hph
    obtain ⟨_, _, ps0, cands0, hq0, hmin, hmax, _⟩ := (matchLog_wf hmem).1 hph
    rw [hq, Option.some.injEq, Prod.mk.injEq] at hq0
    rw [hq0.1]
    exact ⟨hmax, hmin⟩
  · intro hph
    obtain ⟨hmin, hmax, _⟩ := ((matchLog_wf hmem).2 hph).2.2.2.2 ps cands hq
    exact ⟨hmax, hmin⟩

theorem claim_C8_witness :
    c5rec ∈ matchLog officeRoomEx 1000 "standard" none [] ∧
    ((c5rec.phase = .required → c5ps.max_price = some c5rec.perItemBudget ∧
        c5ps.min_price = some (c5rec.perItemBudget * (3/10))) ∧
     (c5rec.phase = .optional → c5ps.max_price = some c5rec.slotBudget ∧
        c5ps.min_price = none)) :=
  ⟨by with_unfolding_all decide,
   claim_C8 officeRoomEx 1000 "standard" none [] c5rec (by with_unfolding_all decide)
     c5ps [] rfl⟩

/-! ## Claim C6 -/

/-- Modelled from the spec: the §4.4 signal table read literally, each row
contributing its fixed points whenever its stated condition holds.  A stored
(non-NULL) field counts as present even when its value is `0` or `0.0` —
unlike the code, whose `c.get(...)` truthiness treats such values as absent.
Kept only for comparison against the code's `score`. -/
def specTableScore (tier : String) (target_price : ℚ) (c : Product) : ℕ :=
  (if target_price ≠ 0 ∧ 6/10 ≤ c.price / target_price ∧ c.price / target_price ≤ 11/10
     then 30
   else if target_price ≠ 0 ∧ 4/10 ≤ c.price / target_price ∧ c.price / target_price ≤ 13/10
     then 15 else 0)
  + (if tier = "luxury" ∧ target_price ≠ 0 ∧ 8/10 < c.price / target_price then 10 else 0)
  + (if c.r2_main_image_key.isSome then 25 else 0)
  + (if c.dimensions_source = some "website_verified" ∨
        c.dimensions_source = some "ai_estimated" then 20
     else if c.width_cm.isSome then 10 else 0)
  + (if truthyStr c.visual_description then 15 else 0)
  + (if c.proportion_w_h.isSome then 15 else 0)
  + (match c.luxury_score with
     | some ls =>
       if tier = "luxury" ∧ 7/10 < ls then 15
       else if tier = "budget" ∧ ls < 3/10 then 10
       else if (tier = "standard" ∨ tier = "premium") ∧ 3/10 ≤ ls ∧ ls ≤ 7/10 then 10
       else 0
     | none => 0)
  + (match c.rating with | some r => if 4 ≤ r then 10 else 0 | none => 0)

/-- A candidate whose luxury_score 0.25 earns the budget-tier alignment bonus
under both the code and the table. -/
def c6aProd : Product := { price := 50, luxury_score := some (1/4) }

/-- A candidate whose luxury_score is exactly 0.0: the table grants it the
budget-tier bonus (0 < 0.3) but the code's truthiness treats 0.0 as absent. -/
def c6bProd : Product := { price := 50, luxury_score := some 0, rating := some (9/2) }

/-- C6 (counterexample): with tier "budget" and target €100, the table scores
the second candidate strictly higher (35 > 25: its luxury_score 0.0 satisfies
`score < 0.3` and its rating 4.5 adds 10), yet `rank_candidates` returns the
first candidate — the code gives no alignment bonus for a falsy luxury_score
of 0.0, producing a 25-25 tie resolved by input order.  The returned winner
does not have maximal score per the §4.4 table. -/
theorem claim_C6_counterexample :
    rank_candidates [c6aProd, c6bProd] 100 "budget" = c6aProd ∧
    c6bProd ∈ [c6aProd, c6bProd] ∧
    specTableScore "budget" 100 c6aProd < specTableScore "budget" 100 c6bProd ∧
    c6aProd ≠ c6bProd := by
  with_unfolding_all decide

/-- C6 (amended): for every non-empty candidate list, target price and tier,
`rank_candidates` returns the candidate whose additive score — per the code's
scoring, which matches the §4.4 table except that a stored falsy value (e.g.
`luxury_score == 0.0`, `price == 0`, an empty string) earns no points — is
maximal, and on ties the candidate occurring earliest in the input list wins
(stable selection). -/
theorem claim_C6 :
    ∀ (candidates : List Product) (target_price : ℚ) (tier : String),
      candidates ≠ [] →
      ∃ i : Fin candidates.length,
        rank_candidates candidates target_price tier = candidates.get i ∧
        (∀ j : Fin candidates.length,
          score tier target_price (candidates.get j) ≤
            score tier target_price (candidates.get i)) ∧
        (∀ j : Fin candidates.length, (j : ℕ) < (i : ℕ) →
          score tier target_price (candidates.get j) <
            score tier target_price (candidates.get i)) :=
  fun cs t tier h => rank_spec cs t tier h

theorem claim_C6_witness :
    (([c6aProd, c6bProd] : List Product) ≠ []) ∧
    (∃ i : Fin ([c6aProd, c6bProd] : List Product).length,
      rank_candidates [c6aProd, c6bProd] 100 "budget" = [c6aProd, c6bProd].get i ∧
      (∀ j : Fin ([c6aProd, c6bProd] : List Product).length,
        score "budget" 100 ([c6aProd, c6bProd].get j) ≤
          score "budget" 100 ([c6aProd, c6bProd].get i)) ∧
      (∀ j : Fin ([c6aProd, c6bProd] : List Product).length, (j : ℕ) < (i : ℕ) →
        score "budget" 100 ([c6aProd, c6bProd].get j) <
          score "budget" 100 ([c6aProd, c6bProd].get i))) :=
  ⟨by simp, claim_C6 [c6aProd, c6bProd] 100 "budget" (by simp)⟩

/-! ## Claim C9 -/

def bedroom1Ex : Room :=
  { id := "ra", type := "bedroom", estimated_width_cm := 350, estimated_depth_cm := 300,
    estimated_area_sqm := some 15, usable_walls := [] }

def bedroom2Ex : Room :=
  { id := "rb", type := "bedroom", estimated_width_cm := 350, estimated_depth_cm := 300,
    estimated_area_sqm := some 15, usable_walls := [] }

def bedroom3Ex : Room :=
  { id := "rc", type := "bedroom", estimated_width_cm := 350, estimated_depth_cm := 300,
    estimated_area_sqm := some 15, usable_walls := [] }

/-- C9 (counterexample): three identical bedrooms and a €100 total: each room
is assigned `round(100/3, 2) = 33.33`, so the paid-out amounts sum to 99.99,
not 100 — after the 2-decimal rounding the amounts need not sum to the
total budget. -/
theorem claim_C9_counterexample :
    (distribute_budget_across_rooms [bedroom1Ex, bedroom2Ex, bedroom3Ex] 100).isOk = true ∧
    distSumOf (distribute_budget_across_rooms [bedroom1Ex, bedroom2Ex, bedroom3Ex] 100) ≠
      100 := by
  with_unfolding_all decide

/-- C9 (amended): for every non-empty room list with distinct ids and nonzero
total weight, `distribute_budget_across_rooms` assigns each room id exactly
`round(total_budget * w / W, 2)` with `w = base_weight(type) * (area/15)` and
`W` the sum of the weights; the UN-rounded proportional shares sum exactly to
`total_budget` (the rounded amounts may differ from it by the accumulated
per-room rounding, as the counterexample shows). -/
theorem claim_C9 :
    ∀ (rooms : List Room) (total_budget : ℚ),
      rooms ≠ [] → (rooms.map (fun r => r.id)).Nodup →
      (rooms.map roomWeight).sum ≠ 0 →
      distribute_budget_across_rooms rooms total_budget =
        .ok (rooms.map (fun r =>
          (r.id, round2 (roomWeight r / (rooms.map roomWeight).sum * total_budget)))) ∧
      (rooms.map (fun r =>
        roomWeight r / (rooms.map roomWeight).sum * total_budget)).sum = total_budget := by
  intro rooms total hne hnd hW
  refine ⟨distribute_spec hne hnd hW, ?_⟩
  have h1 : rooms.map (fun r => roomWeight r / (rooms.map roomWeight).sum * total) =
      (rooms.map roomWeight).map (fun w => w / (rooms.map roomWeight).sum * total) := by
    rw [List.map_map]
    rfl
  rw [h1, map_div_mul_sum, div_self hW, one_mul]

/-- The bedroom of the spec's worked example (12 m²). -/
def c9wRoom1 : Room :=
  { id := "r1", type := "bedroom", estimated_width_cm := 350, estimated_depth_cm := 340,
    estimated_area_sqm := some 12, usable_walls := [] }

/-- The living room of the spec's worked example (20 m²). -/
def c9wRoom2 : Room :=
  { id := "r2", type := "living room", estimated_width_cm := 500, estimated_depth_cm := 400,
    estimated_area_sqm := some 20, usable_walls := [] }

theorem claim_C9_witness :
    (([c9wRoom1, c9wRoom2] : List Room) ≠ []) ∧
    (([c9wRoom1, c9wRoom2].map (fun r => r.id)).Nodup) ∧
    (([c9wRoom1, c9wRoom2].map roomWeight).sum ≠ 0) ∧
    (distribute_budget_across_rooms [c9wRoom1, c9wRoom2] 3000 =
      .ok ([c9wRoom1, c9wRoom2].map (fun r =>
        (r.id, round2 (roomWeight r / ([c9wRoom1, c9wRoom2].map roomWeight).sum * 3000)))) ∧
     ([c9wRoom1, c9wRoom2].map (fun r =>
        roomWeight r / ([c9wRoom1, c9wRoom2].map roomWeight).sum * 3000)).sum = 3000) :=
  ⟨by simp, by with_unfolding_all decide, by with_unfolding_all decide,
   claim_C9 [c9wRoom1, c9wRoom2] 3000 (by simp) (by with_unfolding_all decide)
     (by with_unfolding_all decide)⟩

/-! ## Claim C10 -/

/-- C10 (confirmed): `match_furniture_for_room` and `rank_candidates` are
deterministic — both are pure functions of their arguments (room, budget,
tier, style, catalog snapshot; candidate list, target price, tier): two calls
with identical inputs against an unchanged catalog return identical results.
There is no randomness and no clock dependency anywhere in the embedded
computation. -/
theorem claim_C10 :
    (∀ (room : Room) (budget_eur : ℚ) (tier : String) (style : Option String)
       (catalog : List Product) (room2 : Room) (budget2 : ℚ) (tier2 : String)
       (style2 : Option String) (catalog2 : List Product),
       room = room2 → budget_eur = budget2 → tier = tier2 → style = style2 →
       catalog = catalog2 →
       match_furniture_for_room room budget_eur tier style catalog =
         match_furniture_for_room room2 budget2 tier2 style2 catalog2) ∧
    (∀ (candidates : List Product) (target_price : ℚ) (tier : String)
       (candidates2 : List Product) (target2 : ℚ) (tier2 : String),
       candidates = candidates2 → target_price = target2 → tier = tier2 →
       rank_candidates candidates target_price tier =
         rank_candidates candidates2 target2 tier2) := by
  constructor
  · intro room b tier style cat room2 b2 tier2 style2 cat2 h1 h2 h3 h4 h5
    subst h1; subst h2; subst h3; subst h4; subst h5
    rfl
  · intro cs t tr cs2 t2 tr2 h1 h2 h3
    subst h1; subst h2; subst h3
    rfl

theorem claim_C10_witness :
    match_furniture_for_room officeRoomEx 1000 "standard" none [deskProdEx] =
      match_furniture_for_room officeRoomEx 1000 "standard" none [deskProdEx] ∧
    rank_candidates [deskProdEx] 100 "standard" =
      rank_candidates [deskProdEx] 100 "standard" :=
  ⟨claim_C10.1 officeRoomEx 1000 "standard" none [deskProdEx] officeRoomEx 1000 "standard"
      none [deskProdEx] rfl rfl rfl rfl rfl,
   claim_C10.2 [deskProdEx] 100 "standard" [deskProdEx] 100 "standard" rfl rfl rfl⟩
